import Mathlib

/-!
Verification development for the pin classification, ordering and
coordinate-layout engine of `csv2kicad_energymicro.py`.

The Python script reads a semicolon-delimited CSV pin table, classifies
each pin into one of four schematic units with regex substitutions
(stage 2, lines 273-294), reorders the columns into rows
`[name, functionality, id, unit, type]` (stage 3), counts the power-pin
groups (lines 389-397), sorts the table by unit then by natural
alphanumeric pin name (line 480 via `sort_table`, lines 188-197), runs
one placement loop over the sorted rows (lines 487-595), and finally
derives one box outline per consecutive unit group (lines 608-631).

This file gives a shallow embedding of exactly those stages, translated
from the source.  Python integers are unbounded, hence coordinates are
`Int`; counters are `Nat`.  The columns that the loop reads and writes
(`row[1]` name, `row[2]` functionality, `row[4]` x, `row[5]` y,
`row[6]` length/direction/text, `row[7]` unit, `row[9]` type) are the
fields of `OutRow`; the constant columns `'X'` (designator) and `'1'`
(convert), which the loop never reads, are not modelled.
-/

/-! ### Lexicographic comparison machinery

Python 2 compares lists lexicographically, strings byte-wise, and
`int < str` (by type name) for mixed elements.  `lexLtB` is the generic
boolean lexicographic strict order used at every layer. -/

def lexLtB (lt : α → α → Bool) : List α → List α → Bool
  | [], [] => false
  | [], _ :: _ => true
  | _ :: _, [] => false
  | a :: as, b :: bs => if lt a b then true else if lt b a then false else lexLtB lt as bs

/-- Byte-wise character comparison, as Python 2 compares string bytes. -/
def charLtB (a b : Char) : Bool := decide (a < b)

/-- One element of the natural alphanumeric sort key produced by
`re.split('([0-9]+)', s)` with digit runs converted to `int`
(`natural_sort`, lines 175-183): either a text run or a digit-run value. -/
inductive AKey where
  | str : List Char → AKey
  | num : Nat → AKey
deriving Repr, DecidableEq

/-- Comparison of key elements.  Text runs compare byte-wise, digit runs
numerically; a digit run is below any text run, mirroring Python 2's
`int < str` for mixed comparisons (which can only arise between whole
keys of different shape). -/
def akeyLt : AKey → AKey → Bool
  | .num a, .num b => decide (a < b)
  | .str a, .str b => lexLtB charLtB a b
  | .num _, .str _ => true
  | .str _, .num _ => false

/-- Strict natural alphanumeric order on whole keys. -/
def akeysLt (x y : List AKey) : Bool := lexLtB akeyLt x y

/-- Derived non-strict order: `x` may come no later than `y`. -/
def akeysLe (x y : List AKey) : Prop := akeysLt y x = false

/-- The natural alphanumeric key of a string: alternating text runs and
digit-run values, exactly the shape `re.split('([0-9]+)', s)` yields
(text pieces at the ends may be empty). -/
def splitAlnumAux : List Char → List Char → List AKey
  | acc, [] => [.str acc.reverse]
  | acc, c :: cs =>
    if c.isDigit then
      .str acc.reverse :: splitNumAux (c.toNat - 48) cs
    else splitAlnumAux (c :: acc) cs
where splitNumAux : Nat → List Char → List AKey
  | n, [] => [.num n, .str []]
  | n, c :: cs =>
    if c.isDigit then splitNumAux (10 * n + (c.toNat - 48)) cs
    else .num n :: splitAlnumAux [c] cs

def alnumKey (s : String) : List AKey := splitAlnumAux [] s.toList

/-! ### Data model

A `DataRow` is one row of the reordered data table after stage 3
(lines 316-344): `[Pin_name, Functionality, Pin_id, Unit, Pin_type]`.
The name column holds the name exactly as stage 2 left it: GPIO names
carry the appended `/` (the regexes of lines 279-281 rewrite `PA0;` to
`PA0/;1;`), power-pin names do not.  The unit column in the script holds
the decimal numeral of the unit; it is modelled as the `Nat` it denotes
(the loop reads it back with `int(row[unit_col])`, line 487). -/

structure DataRow where
  name : String
  func : String
  pid : String
  unit : Nat
  ptype : String
deriving Repr, DecidableEq, Inhabited

/-- One placed pin row, after the loop inserted the position columns
(lines 506-510) and the name-specific branches possibly rewrote them:
`row[1]` name, `row[2]` functionality, `row[3]` id, `row[4]` x,
`row[5]` y, `row[6]` length/direction/text-size, `row[7]` unit,
`row[9]` electrical type. -/
structure OutRow where
  name : String
  func : String
  pid : String
  x : Int
  y : Int
  lts : String
  unit : Nat
  ptype : String
deriving Repr, DecidableEq, Inhabited

/-- pin_y_spacing (line 436). -/
def pinYSpacing : Int := 100

/-- pin_y_box_offset (line 439). -/
def pinYBoxOffset : Int := 150

/-- pin_length (line 415). -/
def pinLength : Int := 300

/-- unit4_width (line 413). -/
def unit4Width : Int := 1000

/-- pin_l_x (line 424). -/
def pinLX : Int := 0

/-- pin_r_x = unit4_width + 2 * pin_length (line 433). -/
def pinRX : Int := 1600

/-- pin_left_lts (line 419): length, LEFT-side orientation and text sizes. -/
def pinLeftLts : String := "300 R 50 50"

/-- pin_right_lts (line 428): length, RIGHT-side orientation and text sizes. -/
def pinRightLts : String := "300 L 50 50"

/-! ### Stage-2 classification

Lines 279-282 insert the unit number with `re.sub` over the whole CSV
line `id;name;type;functionality`.  For a well-formed row whose pin id
is a decimal numeral (as in the EFM32 CSV files), a GPIO pattern
`(PA|PB)\d{1,2};` can only match a run that ends exactly at the end of
the name field (the digits must be followed by the `;` delimiter), and
the power pattern `^\w*\d{1,2};(IOVD...|...);` matches exactly when the
name field starts with one of the listed prefixes.  When both fire the
power substitution runs second and its `4` lands in the unit column. -/

/-- Decides whether some substring matching `(p0 p1)\d{1,2}` ends exactly
at the end of `s`, i.e. whether the stage-2 GPIO substitution for the
two-letter port prefix `p0 p1` fires on the name field `s`. -/
def gpioSuffix (p0 p1 : Char) (s : String) : Bool :=
  match s.toList.reverse with
  | d0 :: c1 :: c2 :: rest =>
    (d0.isDigit && (c2 = p0 : Bool) && (c1 = p1 : Bool)) ||
    (match rest with
     | c3 :: _ => d0.isDigit && c1.isDigit && (c3 = p0 : Bool) && (c2 = p1 : Bool)
     | [] => false)
  | _ => false

/-- Decides whether the name field starts with one of the power-pin
prefixes of the regex on line 282:
`IOVD | A{0,1}VSS | A{0,1}VDD | RESE | DECO | USB_`. -/
def powerPfx (s : String) : Bool :=
  decide (s.toList.take 4 = ['I', 'O', 'V', 'D']) ||
  decide (s.toList.take 3 = ['V', 'S', 'S']) ||
  decide (s.toList.take 4 = ['A', 'V', 'S', 'S']) ||
  decide (s.toList.take 3 = ['V', 'D', 'D']) ||
  decide (s.toList.take 4 = ['A', 'V', 'D', 'D']) ||
  decide (s.toList.take 4 = ['R', 'E', 'S', 'E']) ||
  decide (s.toList.take 4 = ['D', 'E', 'C', 'O']) ||
  decide (s.toList.take 4 = ['U', 'S', 'B', '_'])

/-- The unit number that the stage-2 substitutions (lines 279-282) place
in the Unit column for a row with name field `name` and a decimal pin
id, or `none` when no substitution fires, in which case the row gets no
Unit column at all (and the column reordering of line 343 then fails
with an index error on such a row). -/
def classify (name : String) : Option Nat :=
  if powerPfx name then some 4
  else if gpioSuffix 'P' 'A' name || gpioSuffix 'P' 'B' name then some 1
  else if gpioSuffix 'P' 'C' name || gpioSuffix 'P' 'D' name then some 2
  else if gpioSuffix 'P' 'E' name || gpioSuffix 'P' 'F' name then some 3
  else none

/-! ### Stage-4 group counting (lines 374-397) -/

/-- Matches `re.match(r'^P\w\d{1,2}', name)` (line 376): the filter that
keeps only non-GPIO names for the power-group counting. -/
def gpioDataName (s : String) : Bool :=
  match s.toList with
  | 'P' :: w :: d :: _ => (w.isAlphanum || (w = '_' : Bool)) && d.isDigit
  | _ => false

/-- The names of the rows that survive the non-GPIO filter of lines
374-377.  The script also keeps and then deletes the header row
(line 380); the two steps cancel and the header is not modelled. -/
def unit4Names (rows : List DataRow) : List String :=
  (rows.filter (fun r => !gpioDataName r.name)).map DataRow.name

/-- Number of names whose first five characters (`row[0:5]`, line 389)
equal `key`. -/
def count5 (names : List String) (key : List Char) : Nat :=
  (names.filter (fun n => n.toList.take 5 = key)).length

/-- The per-device counts and flags extracted from the `Counter` of
first-five-character slices (lines 389-397). -/
structure DevConsts where
  avddTot : Nat
  avssTot : Nat
  iovddTot : Nat
  vssTot : Nat
  vssdregFlag : Bool
  usbvFlag : Bool
deriving Repr, DecidableEq

/-- Lines 392-397: `avdd_tot`, `avss_tot`, `iovdd_tot`, `vss_tot`,
`vssdreg_flag`, `usbv_flag`. -/
def devConsts (names : List String) : DevConsts :=
  { avddTot := count5 names ['A', 'V', 'D', 'D', '_']
    avssTot := count5 names ['A', 'V', 'S', 'S', '_']
    iovddTot := count5 names ['I', 'O', 'V', 'D', 'D']
    vssTot := count5 names ['V', 'S', 'S']
    vssdregFlag := count5 names ['V', 'S', 'S', '_', 'D'] != 0
    usbvFlag := count5 names ['U', 'S', 'B', '_', 'V'] != 0 }

/-- avdd_iovdd_max (lines 468-475): the shared anchor,
`max(usbv_flag * 7 + 4 + avdd_tot, iovdd_tot + 6)` with the offsets
`up6[1] = 7`, `up10[1] = 4`, `up3[1] = 6`. -/
def anchorMax (c : DevConsts) : Int :=
  max ((if c.usbvFlag then 7 else 0) + 4 + (c.avddTot : Int)) ((c.iovddTot : Int) + 6)

/-! ### The placement loop (lines 480-595) -/

/-- Matches `re.match(r'^PB|PD|PF\d{1,2}', name)` (line 498): the
second-bank test that triggers the blank separator row.  The
alternation binds so that `PB` and `PD` need no digit while `PF` needs
at least one. -/
def secondBank (s : String) : Bool :=
  decide (s.toList.take 2 = ['P', 'B']) || decide (s.toList.take 2 = ['P', 'D']) ||
  (decide (s.toList.take 2 = ['P', 'F']) &&
    (match s.toList.drop 2 with
     | d :: _ => d.isDigit
     | [] => false))

/-- Matches `re.match('IOVDD_\d', name)` (line 526). -/
def isIOVDDd (s : String) : Bool :=
  decide (s.toList.take 6 = ['I', 'O', 'V', 'D', 'D', '_']) &&
  (match s.toList.drop 6 with
   | d :: _ => d.isDigit
   | [] => false)

/-- Matches `re.match('VSS(?!.D)', name)` (line 567): names starting
with `VSS` whose fifth character is not `D` (so `VSS` and `VSS_PAD`
match, `VSS_DREG` does not). -/
def isVSSpin (s : String) : Bool :=
  decide (s.toList.take 3 = ['V', 'S', 'S']) &&
  (match s.toList.drop 3 with
   | _ :: 'D' :: _ => false
   | _ => true)

/-- Matches `re.match('AVDD_.', name)` (line 578). -/
def isAVDDpin (s : String) : Bool :=
  decide (s.toList.take 5 = ['A', 'V', 'D', 'D', '_']) && !(s.toList.drop 5).isEmpty

/-- Matches `re.match('AVSS_.', name)` (line 586). -/
def isAVSSpin (s : String) : Bool :=
  decide (s.toList.take 5 = ['A', 'V', 'S', 'S', '_']) && !(s.toList.drop 5).isEmpty

/-- Decides that a name triggers none of the eleven name-specific
placement branches of lines 513-592, so the row keeps its default
position data from lines 506-510. -/
def plainName (s : String) : Bool :=
  s != "RESETn" && s != "DECOUPLE" && !isIOVDDd s &&
  s != "USB_VBUS" && s != "USB_VREGI" && s != "USB_VREGO" &&
  s != "VDD_DREG" && s != "VSS_DREG" && !isVSSpin s &&
  !isAVDDpin s && !isAVSSpin s

/-- The mutable loop variables of lines 487-494 together with `vss_max`
(line 574, which is only ever assigned in the VSS branch and is not part
of the reset block).  Before the first row every counter is unbound in
the script; the first row always has a unit different from the initial
tracker value 0 and therefore resets them all. -/
structure LoopState where
  unitNumber : Nat
  counterRowInUnit : Nat
  unitRowSubFlag : Bool
  iovddCounter : Nat
  vssCounter : Nat
  avddCounter : Nat
  avssCounter : Nat
  vssMax : Option Int
deriving Repr, DecidableEq

def initState : LoopState :=
  { unitNumber := 0, counterRowInUnit := 0, unitRowSubFlag := false,
    iovddCounter := 0, vssCounter := 0, avddCounter := 0, avssCounter := 0,
    vssMax := none }

/-- The counter reset of lines 487-494: note that the unit tracker is
incremented by one, not set to the row's unit number. -/
def resetTo (st : LoopState) : LoopState :=
  { unitNumber := st.unitNumber + 1, counterRowInUnit := 0, unitRowSubFlag := false,
    iovddCounter := 0, vssCounter := 0, avddCounter := 0, avssCounter := 0,
    vssMax := st.vssMax }

/-- The body of one placement-loop iteration after the reset check
(lines 497-594), on the state `st1` left by the reset check: separator
bump, default position insert, the eleven name-specific branches in
source order (each an independent `if` testing the current value of the
name column), and the final row counter increment. -/
def stepCore (c : DevConsts) (st1 : LoopState) (r : DataRow) : LoopState × OutRow :=
  -- lines 497-501
  let st2 := if !st1.unitRowSubFlag && secondBank r.name then
      { st1 with unitRowSubFlag := true, counterRowInUnit := st1.counterRowInUnit + 1 }
    else st1
  let A : Int := anchorMax c
  let vd2 : Int := if c.vssdregFlag then 2 else 0
  -- lines 506-510: default position columns
  let o0 : OutRow :=
    { name := r.name, func := r.func, pid := r.pid,
      x := pinLX, y := -(pinYSpacing * (st2.counterRowInUnit : Int)), lts := pinLeftLts,
      unit := r.unit, ptype := r.ptype }
  -- lines 513-517: Reset pin
  let o1 := if o0.name = "RESETn" then
      { o0 with
          name := "~RESET~", y := -(0 * pinYSpacing), lts := pinLeftLts,
          ptype := "P I" }
    else o0
  -- lines 520-523: Decouple
  let o2 := if o1.name = "DECOUPLE" then
      { o1 with x := pinRX, y := -(0 * pinYSpacing), lts := pinRightLts }
    else o1
  -- lines 526-531: IOVDD_x
  let p3 := if isIOVDDd o2.name then
      ({ st2 with iovddCounter := st2.iovddCounter + 1 },
       { o2 with
           x := pinRX,
           y := -(A - (c.iovddTot : Int) + (st2.iovddCounter : Int)) * pinYSpacing,
           lts := pinRightLts })
    else (st2, o2)
  let st3 := p3.1
  let o3 := p3.2
  -- lines 534-537: USB_VBUS
  let o4 := if o3.name = "USB_VBUS" then
      { o3 with x := pinLX, y := -(4 * pinYSpacing), lts := pinLeftLts }
    else o3
  -- lines 540-543: USB_VREGI
  let o5 := if o4.name = "USB_VREGI" then
      { o4 with x := pinLX, y := -(6 * pinYSpacing), lts := pinLeftLts }
    else o4
  -- lines 546-549: USB_VREGO
  let o6 := if o5.name = "USB_VREGO" then
      { o5 with x := pinLX, y := -(7 * pinYSpacing), lts := pinLeftLts }
    else o5
  -- lines 552-556: VDD_DREG
  let o7 := if o6.name = "VDD_DREG" then
      { o6 with
          x := pinRX, y := -(A - (c.iovddTot : Int) - 2) * pinYSpacing,
          lts := pinRightLts }
    else o6
  -- lines 559-564: VSS_DREG (the local vss_dreg_flag set there is never read)
  let o8 := if o7.name = "VSS_DREG" then
      { o7 with x := pinRX, y := -(3 + A) * pinYSpacing, lts := pinRightLts }
    else o7
  -- lines 567-575: VSS / VSS_PAD, also records vss_max
  let p9 := if isVSSpin o8.name then
      ({ st3 with
           vssCounter := st3.vssCounter + 1,
           vssMax := some (A + 3 + vd2 + (st3.vssCounter : Int)) },
       { o8 with
           x := pinRX,
           y := -(A + 3 + vd2 + (st3.vssCounter : Int)) * pinYSpacing,
           lts := pinRightLts })
    else (st3, o8)
  let st4 := p9.1
  let o9 := p9.2
  -- lines 578-583: AVDD_n
  let p10 := if isAVDDpin o9.name then
      ({ st4 with avddCounter := st4.avddCounter + 1 },
       { o9 with
           x := pinLX,
           y := -(A - (c.avddTot : Int) + (st4.avddCounter : Int)) * pinYSpacing,
           lts := pinLeftLts })
    else (st4, o9)
  let st5 := p10.1
  let o10 := p10.2
  -- lines 586-592: AVSS_n
  let p11 := if isAVSSpin o10.name then
      ({ st5 with avssCounter := st5.avssCounter + 1 },
       { o10 with
           x := pinLX,
           y := -(A + 3 + vd2 + (c.vssTot : Int) + (st5.avssCounter : Int)
                  - (c.avssTot : Int)) * pinYSpacing,
           lts := pinLeftLts })
    else (st5, o10)
  let st6 := p11.1
  let o11 := p11.2
  -- line 594
  ({ st6 with counterRowInUnit := st6.counterRowInUnit + 1 }, o11)

/-- One iteration of the placement loop (lines 487-594) on one sorted
data row: the reset check of lines 487-494 followed by the loop body. -/
def step (c : DevConsts) (st0 : LoopState) (r : DataRow) : LoopState × OutRow :=
  stepCore c (if r.unit ≠ st0.unitNumber then resetTo st0 else st0) r

/-- The whole loop of line 480: fold `step` over the sorted rows,
collecting the emitted rows of `sorted_table`. -/
def runRows (c : DevConsts) : LoopState → List DataRow → LoopState × List OutRow
  | st, [] => (st, [])
  | st, r :: rs =>
    let p := step c st r
    let q := runRows c p.1 rs
    (q.1, p.2 :: q.2)

/-! ### Sorting (lines 175-197, 480)

`sort_table(data, (unit_col, pinname_col))` runs Python's stable
`list.sort` twice: first with the natural alphanumeric key of the name
column, then with the natural alphanumeric key of the unit column.  A
stable ascending sort by a total preorder is extensionally unique, so
each pass is modelled by `List.insertionSort` with the corresponding
non-strict key order (Mathlib's `insertionSort` is stable and places an
element before the tail elements it compares `≤` to, like `list.sort`
keeps equal keys in original order). -/

/-- Sort key of the unit column: the unit number is stored as its
decimal numeral, whose natural alphanumeric key is
`[str [], num u, str []]` (sanity-checked below for the four units that
occur). -/
def unitKey (u : Nat) : List AKey := [.str [], .num u, .str []]

/-- Non-strict natural order on rows by name column (first sort pass). -/
def rowNameLe (a b : DataRow) : Prop :=
  akeysLt (alnumKey b.name) (alnumKey a.name) = false

/-- Non-strict order on rows by unit column (second sort pass). -/
def rowUnitLe (a b : DataRow) : Prop :=
  akeysLt (unitKey b.unit) (unitKey a.unit) = false

instance : DecidableRel rowNameLe := fun a b =>
  inferInstanceAs (Decidable (_ = false))

instance : DecidableRel rowUnitLe := fun a b =>
  inferInstanceAs (Decidable (_ = false))

/-- sort_table(data, (unit_col, pinname_col)) (lines 188-197, 480):
stable sort by name key, then stable sort by unit key. -/
def sortTable (rows : List DataRow) : List DataRow :=
  List.insertionSort rowUnitLe (List.insertionSort rowNameLe rows)

/-- The per-device pipeline: compute the group counts from the unsorted
data rows (lines 374-397), then run the placement loop over the sorted
table (line 480). -/
def pipelineRun (rows : List DataRow) : LoopState × List OutRow :=
  runRows (devConsts (unit4Names rows)) initState (sortTable rows)

def pipeline (rows : List DataRow) : List OutRow := (pipelineRun rows).2

/-! ### Stage-5 unit box outlines (lines 605-631) -/

/-- One `S` box outline row: `S x_min y_max x_max y_min unit 1 0 N`. -/
structure UnitBox where
  xMin : Int
  yMax : Int
  xMax : Int
  yMin : Int
  unit : Nat
deriving Repr, DecidableEq, Inhabited

/-- count_dict (line 608): pins per unit, over the (mutated in place,
unsorted) data rows. -/
def countUnit (rows : List DataRow) (u : Nat) : Nat :=
  (rows.filter (fun r => r.unit = u)).length

/-- itertools.groupby by the unit column (line 617): split the sorted
output rows into maximal consecutive runs of equal unit. -/
def chunkByUnit : List OutRow → List (Nat × List OutRow)
  | [] => []
  | r :: rs =>
    match chunkByUnit rs with
    | [] => [(r.unit, [r])]
    | (u, g) :: t =>
      if r.unit = u then (u, r :: g) :: t else (r.unit, [r]) :: (u, g) :: t

/-- The box of one unit group (lines 619-631).  For units below 4 the
height comes from the per-unit pin count and the width from the longest
name-plus-functionality text in the group (the group is never empty, so
the fold with initial value 0 is Python's `max`).  For unit 4 the box
needs `vss_max`, which is unbound when no VSS/VSS_PAD pin was placed;
that unbound-variable error is modelled by `none`. -/
def unitBoxOf (cnt : Nat → Nat) (vssMax : Option Int) (g : Nat × List OutRow) :
    Option UnitBox :=
  if g.1 < 4 then
    some
      { xMin := pinLength, yMax := pinYBoxOffset,
        xMax := ((g.2.map (fun r => ((r.name ++ r.func).length : Int))).foldl max 0)
          * 45 + 300 + pinLength,
        yMin := -(pinYSpacing * (cnt g.1 : Int) + pinYBoxOffset),
        unit := g.1 }
  else
    match vssMax with
    | some v =>
      some
        { xMin := pinLength, yMax := pinYBoxOffset,
          xMax := unit4Width + pinLength,
          yMin := -(v * pinYSpacing + pinYBoxOffset),
          unit := g.1 }
    | none => none

/-- Map a fallible box constructor over the groups; the first failing
group aborts the whole run, as the unbound `vss_max` aborts the script. -/
def optMap (f : α → Option β) : List α → Option (List β)
  | [] => some []
  | a :: as =>
    match f a, optMap f as with
    | some b, some bs => some (b :: bs)
    | _, _ => none

/-- Stage 5 for one device: one box per consecutive unit group of the
placed rows, or `none` when the unit-4 box is demanded with `vss_max`
never assigned. -/
def unitBoxes (rows : List DataRow) : Option (List UnitBox) :=
  let pr := pipelineRun rows
  optMap (unitBoxOf (countUnit rows) pr.1.vssMax) (chunkByUnit pr.2)

/-- Whether a separator bump has occurred at or before index `i` of the
unit's row list (0 or 1 extra slot). -/
def sepBump (rows : List DataRow) (i : Nat) : Nat :=
  if (rows.take (i + 1)).any (fun r => secondBank r.name) then 1 else 0

/-- The slot finally assigned to the row at index `i`, processed from a
state with row counter `n` and separator flag `f`. -/
def slotOf (f : Bool) (n : Nat) (rows : List DataRow) (i : Nat) : Nat :=
  n + i + (if f then 0 else sepBump rows i)

/-- Number of rows before index `i` whose name satisfies `p` (the
zero-based running group counter the loop has reached at row `i`). -/
def countPred (p : String → Bool) (rows : List DataRow) (i : Nat) : Nat :=
  ((rows.take i).filter (fun r => p r.name)).length

/-- A GPIO data row as stage 3 leaves it: the name column carries the
appended slash, the unit the number the stage-2 substitution inserted. -/
def gpRow (n : String) (u : Nat) : DataRow :=
  { name := n, func := "", pid := "9", unit := u, ptype := "U" }

/-- A power-pin data row: unit 4, no slash on the name. -/
def pwRow (n : String) : DataRow :=
  { name := n, func := "", pid := "9", unit := 4, ptype := "W" }

def c2rows : List DataRow :=
  [gpRow "PA0/" 1, gpRow "PC0/" 2, gpRow "PE0/" 3, pwRow "AVDD_0", pwRow "RESETX"]

/-- The mid-unit state used by the C2 witness. -/
def c2state : LoopState := { initState with unitNumber := 4, counterRowInUnit := 3 }

/-- The shared anchor as claim C3 words it, with hasUsbVregOut true
exactly when a pin named USB_VREGO is present (the code instead sets its
flag from any name whose first five characters are USB_V). -/
def anchorPerClaimC3 (names : List String) : Int :=
  max ((if names.contains "USB_VREGO" then 7 else 0) + 4 + ((devConsts names).avddTot : Int))
      (((devConsts names).iovddTot : Int) + 6)

/-- The VSS group count as claim C4 reads: a prefix match that puts
pins differing only by a numeric suffix (VSS_1, VSS_2) in one group. -/
def vssCountPerClaimC4 (names : List String) : Nat :=
  (names.filter (fun n => ['V', 'S', 'S'].isPrefixOf n.toList)).length

def c5rows : List DataRow := [gpRow "PB0/" 1]

def c5wit : List DataRow := [gpRow "PA0/" 1, gpRow "PA1/" 1, gpRow "PB0/" 1]

def c6rows : List DataRow := [gpRow "PB0/" 1, gpRow "PA0/" 1, gpRow "PA1/" 1]

def c7wit : List DataRow := [gpRow "PA0/" 1, pwRow "RESETn", pwRow "VSS"]

def c7rows : List DataRow := [gpRow "PA0/" 1, pwRow "RESETn"]

def c8rows : List DataRow := [gpRow "PA0/" 1, gpRow "PA1/" 1, gpRow "PB0/" 1]

/-- Box height of a unit as claim C8 words it: spacing times the pin
count INCLUDING the separator slot, plus the box offset. -/
def boxHeightPerClaimC8 (pinCountWithSep : Nat) : Int :=
  pinYSpacing * pinCountWithSep + pinYBoxOffset

def c9rows : List DataRow :=
  [gpRow "PA0/" 1, gpRow "PC0/" 2, gpRow "PE0/" 3, pwRow "IOVDD_1", pwRow "IOVDD_0"]

def c9wit : List DataRow := [pwRow "IOVDD_0", pwRow "IOVDD_1"]

def c9state : LoopState := { initState with unitNumber := 4 }

def c10rows : List DataRow := [gpRow "PC0/" 2, gpRow "PD0/" 2]

def c10wit : List DataRow := [gpRow "PC0/" 2, gpRow "PC1/" 2, gpRow "PC2/" 2]

theorem lexLtB_irrefl (lt : α → α → Bool) (h : ∀ a, lt a a = false) :
    ∀ as, lexLtB lt as as = false
  | [] => rfl
  | a :: as => by simp [lexLtB, h a, lexLtB_irrefl lt h as]

theorem lexLtB_asymm (lt : α → α → Bool) (h : ∀ a b, lt a b = true → lt b a = false) :
    ∀ as bs, lexLtB lt as bs = true → lexLtB lt bs as = false
  | [], [], _ => rfl
  | [], _ :: _, _ => rfl
  | _ :: _, [], hx => by simp [lexLtB] at hx
  | a :: as, b :: bs, hx => by
    by_cases hab : lt a b = true
    · simp [lexLtB, h a b hab, hab]
    · by_cases hba : lt b a = true
      · simp [lexLtB, hab, hba] at hx
      · simp only [lexLtB, hab, hba, if_false, Bool.false_eq_true] at hx ⊢
        exact lexLtB_asymm lt h as bs hx

theorem lexLtB_eq_of_not (lt : α → α → Bool)
    (heq : ∀ a b, lt a b = false → lt b a = false → a = b) :
    ∀ as bs, lexLtB lt as bs = false → lexLtB lt bs as = false → as = bs
  | [], [], _, _ => rfl
  | [], _ :: _, hx, _ => by simp [lexLtB] at hx
  | _ :: _, [], _, hy => by simp [lexLtB] at hy
  | a :: as, b :: bs, hx, hy => by
    by_cases hab : lt a b = true
    · simp [lexLtB, hab] at hx
    · by_cases hba : lt b a = true
      · simp [lexLtB, hba] at hy
      · simp only [lexLtB, hab, hba, if_false, Bool.false_eq_true] at hx hy
        have h1 := heq a b (by simpa using hab) (by simpa using hba)
        have h2 := lexLtB_eq_of_not lt heq as bs hx hy
        rw [h1, h2]

theorem lexLtB_trans (lt : α → α → Bool)
    (htr : ∀ a b c, lt a b = true → lt b c = true → lt a c = true)
    (heq : ∀ a b, lt a b = false → lt b a = false → a = b) :
    ∀ as bs cs, lexLtB lt as bs = true → lexLtB lt bs cs = true → lexLtB lt as cs = true
  | [], [], _, hx, hy => by simpa [lexLtB] using hy
  | [], _ :: _, [], _, hy => by simp [lexLtB] at hy
  | [], _ :: _, _ :: _, _, _ => rfl
  | _ :: _, [], _, hx, _ => by simp [lexLtB] at hx
  | _ :: _, _ :: _, [], _, hy => by simp [lexLtB] at hy
  | a :: as, b :: bs, c :: cs, hx, hy => by
    by_cases hab : lt a b = true
    · by_cases hbc : lt b c = true
      · simp [lexLtB, htr a b c hab hbc]
      · by_cases hcb : lt c b = true
        · simp [lexLtB, hbc, hcb] at hy
        · have hbc2 := heq b c (by simpa using hbc) (by simpa using hcb)
          subst hbc2
          simp [lexLtB, hab]
    · by_cases hba : lt b a = true
      · simp [lexLtB, hab, hba] at hx
      · have hab2 := heq a b (by simpa using hab) (by simpa using hba)
        subst hab2
        simp only [lexLtB, hab, if_false, Bool.false_eq_true] at hx ⊢
        by_cases hac : lt a c = true
        · simp [hac]
        · by_cases hca : lt c a = true
          · simp [lexLtB, hac, hca] at hy
          · simp only [lexLtB, hac, hca, if_false, Bool.false_eq_true] at hy ⊢
            exact lexLtB_trans lt htr heq as bs cs hx hy

theorem charLtB_irrefl (a : Char) : charLtB a a = false := by
  simp [charLtB]

theorem charLtB_asymm (a b : Char) (h : charLtB a b = true) : charLtB b a = false := by
  simp only [charLtB, decide_eq_true_eq, decide_eq_false_iff_not] at h ⊢
  exact lt_asymm h

theorem charLtB_trans (a b c : Char) (h1 : charLtB a b = true) (h2 : charLtB b c = true) :
    charLtB a c = true := by
  simp only [charLtB, decide_eq_true_eq] at h1 h2 ⊢
  exact lt_trans h1 h2

theorem charLtB_eq_of_not (a b : Char) (h1 : charLtB a b = false) (h2 : charLtB b a = false) :
    a = b := by
  simp only [charLtB, decide_eq_false_iff_not] at h1 h2
  exact le_antisymm (le_of_not_lt h2) (le_of_not_lt h1)

theorem akeyLt_irrefl (a : AKey) : akeyLt a a = false := by
  cases a with
  | str s => simpa [akeyLt] using lexLtB_irrefl charLtB charLtB_irrefl s
  | num n => simp [akeyLt]

theorem akeyLt_asymm (a b : AKey) (h : akeyLt a b = true) : akeyLt b a = false := by
  cases a with
  | str sa =>
    cases b with
    | str sb => exact lexLtB_asymm charLtB charLtB_asymm _ _ h
    | num nb => exact absurd h (by simp [akeyLt])
  | num na =>
    cases b with
    | str sb => simp [akeyLt]
    | num nb =>
      simp only [akeyLt, decide_eq_true_eq] at h
      simp only [akeyLt, decide_eq_false_iff_not]
      omega

theorem akeyLt_trans (a b c : AKey) (h1 : akeyLt a b = true) (h2 : akeyLt b c = true) :
    akeyLt a c = true := by
  cases a with
  | str sa =>
    cases b with
    | str sb =>
      cases c with
      | str sc => exact lexLtB_trans charLtB charLtB_trans charLtB_eq_of_not _ _ _ h1 h2
      | num nc => exact absurd h2 (by simp [akeyLt])
    | num nb => exact absurd h1 (by simp [akeyLt])
  | num na =>
    cases c with
    | str sc => simp [akeyLt]
    | num nc =>
      cases b with
      | str sb => exact absurd h2 (by simp [akeyLt])
      | num nb =>
        simp only [akeyLt, decide_eq_true_eq] at h1 h2 ⊢
        exact Nat.lt_trans h1 h2

theorem akeyLt_eq_of_not (a b : AKey) (h1 : akeyLt a b = false) (h2 : akeyLt b a = false) :
    a = b := by
  cases a with
  | str sa =>
    cases b with
    | str sb => rw [lexLtB_eq_of_not charLtB charLtB_eq_of_not _ _ h1 h2]
    | num nb => exact absurd h2 (by simp [akeyLt])
  | num na =>
    cases b with
    | str sb => exact absurd h1 (by simp [akeyLt])
    | num nb =>
      simp only [akeyLt, decide_eq_false_iff_not] at h1 h2
      rw [Nat.le_antisymm (Nat.le_of_not_lt h1) (Nat.le_of_not_lt h2)]

theorem akeysLt_irrefl (x : List AKey) : akeysLt x x = false :=
  lexLtB_irrefl akeyLt akeyLt_irrefl x

theorem akeysLt_asymm (x y : List AKey) (h : akeysLt x y = true) : akeysLt y x = false :=
  lexLtB_asymm akeyLt akeyLt_asymm x y h

theorem akeysLt_trans (x y z : List AKey) (h1 : akeysLt x y = true) (h2 : akeysLt y z = true) :
    akeysLt x z = true :=
  lexLtB_trans akeyLt akeyLt_trans akeyLt_eq_of_not x y z h1 h2

theorem akeysLt_eq_of_not (x y : List AKey) (h1 : akeysLt x y = false)
    (h2 : akeysLt y x = false) : x = y :=
  lexLtB_eq_of_not akeyLt akeyLt_eq_of_not x y h1 h2

theorem akeysLe_total (x y : List AKey) : akeysLe x y ∨ akeysLe y x := by
  by_cases h : akeysLt y x = true
  · exact Or.inr (akeysLt_asymm y x h)
  · exact Or.inl (by simpa using h)

theorem akeysLe_trans (x y z : List AKey) (h1 : akeysLe x y) (h2 : akeysLe y z) :
    akeysLe x z := by
  unfold akeysLe at h1 h2 ⊢
  by_contra hzx
  have hzx2 : akeysLt z x = true := by simpa using hzx
  by_cases hxy : akeysLt x y = true
  · have h3 := akeysLt_trans z x y hzx2 hxy
    rw [h3] at h2
    exact absurd h2 (by simp)
  · have hx := akeysLt_eq_of_not x y (by simpa using hxy) h1
    subst hx
    rw [hzx2] at h2
    exact absurd h2 (by simp)

theorem unitKey_matches_numeral :
    (∀ u ∈ [1, 2, 3, 4], alnumKey (toString u) = unitKey u) := by decide

instance : IsTotal DataRow rowNameLe :=
  ⟨fun a b => akeysLe_total (alnumKey a.name) (alnumKey b.name)⟩

instance : IsTrans DataRow rowNameLe :=
  ⟨fun a b c h1 h2 => akeysLe_trans (alnumKey a.name) (alnumKey b.name)
    (alnumKey c.name) h1 h2⟩

instance : IsTotal DataRow rowUnitLe :=
  ⟨fun a b => akeysLe_total (unitKey a.unit) (unitKey b.unit)⟩

instance : IsTrans DataRow rowUnitLe :=
  ⟨fun a b c h1 h2 => akeysLe_trans (unitKey a.unit) (unitKey b.unit)
    (unitKey c.unit) h1 h2⟩

theorem step_no_reset (c : DevConsts) (st : LoopState) (r : DataRow)
    (hu : r.unit = st.unitNumber) : step c st r = stepCore c st r := by
  unfold step
  rw [if_neg (by simp [hu])]

theorem step_reset (c : DevConsts) (st : LoopState) (r : DataRow)
    (hu : r.unit ≠ st.unitNumber) : step c st r = stepCore c (resetTo st) r := by
  unfold step
  rw [if_pos hu]

theorem take_of_take_eq {α : Type} {l key : List α} (m n : Nat) (h : l.take n = key)
    (hm : m ≤ n) : l.take m = key.take m := by
  rw [← h, List.take_take, Nat.min_eq_left hm]

theorem plainName_parts (s : String) (hp : plainName s = true) :
    s ≠ "RESETn" ∧ s ≠ "DECOUPLE" ∧ isIOVDDd s = false ∧
    s ≠ "USB_VBUS" ∧ s ≠ "USB_VREGI" ∧ s ≠ "USB_VREGO" ∧
    s ≠ "VDD_DREG" ∧ s ≠ "VSS_DREG" ∧ isVSSpin s = false ∧
    isAVDDpin s = false ∧ isAVSSpin s = false := by
  simp only [plainName, Bool.and_eq_true, bne_iff_ne, ne_eq, Bool.not_eq_true'] at hp
  tauto

theorem name_cases (s : String) :
    plainName s = true ∨ s = "RESETn" ∨ s = "DECOUPLE" ∨ isIOVDDd s = true ∨
    s = "USB_VBUS" ∨ s = "USB_VREGI" ∨ s = "USB_VREGO" ∨
    s = "VDD_DREG" ∨ s = "VSS_DREG" ∨ isVSSpin s = true ∨
    isAVDDpin s = true ∨ isAVSSpin s = true := by
  by_cases hp : plainName s = true
  · exact Or.inl hp
  · simp only [plainName, Bool.and_eq_true, bne_iff_ne, ne_eq, Bool.not_eq_true',
      not_and_or, not_not, Bool.not_eq_false] at hp
    tauto

theorem stepCore_plain_noBump (c : DevConsts) (st : LoopState) (r : DataRow)
    (hp : plainName r.name = true)
    (hnb : st.unitRowSubFlag = true ∨ secondBank r.name = false) :
    stepCore c st r =
      ({ st with counterRowInUnit := st.counterRowInUnit + 1 },
       { name := r.name, func := r.func, pid := r.pid, x := pinLX,
         y := -(pinYSpacing * (st.counterRowInUnit : Int)),
         lts := pinLeftLts, unit := r.unit, ptype := r.ptype }) := by
  obtain ⟨h1, h2, h3, h4, h5, h6, h7, h8, h9, h10, h11⟩ := plainName_parts r.name hp
  have hflag : (!st.unitRowSubFlag && secondBank r.name) = false := by
    rcases hnb with h | h <;> simp [h]
  simp [stepCore, hflag, h1, h2, h3, h4, h5, h6, h7, h8, h9, h10, h11]

theorem stepCore_plain_bump (c : DevConsts) (st : LoopState) (r : DataRow)
    (hp : plainName r.name = true)
    (hf : st.unitRowSubFlag = false) (hb : secondBank r.name = true) :
    stepCore c st r =
      ({ st with unitRowSubFlag := true, counterRowInUnit := st.counterRowInUnit + 2 },
       { name := r.name, func := r.func, pid := r.pid, x := pinLX,
         y := -(pinYSpacing * ((st.counterRowInUnit : Int) + 1)),
         lts := pinLeftLts, unit := r.unit, ptype := r.ptype }) := by
  obtain ⟨h1, h2, h3, h4, h5, h6, h7, h8, h9, h10, h11⟩ := plainName_parts r.name hp
  have hflag : (!st.unitRowSubFlag && secondBank r.name) = true := by simp [hf, hb]
  simp [stepCore, hflag, h1, h2, h3, h4, h5, h6, h7, h8, h9, h10, h11]

theorem isIOVDDd_excl (s : String) (h : isIOVDDd s = true) :
    s ≠ "RESETn" ∧ s ≠ "DECOUPLE" ∧ s ≠ "USB_VBUS" ∧ s ≠ "USB_VREGI" ∧
    s ≠ "USB_VREGO" ∧ s ≠ "VDD_DREG" ∧ s ≠ "VSS_DREG" ∧
    isVSSpin s = false ∧ isAVDDpin s = false ∧ isAVSSpin s = false ∧
    secondBank s = false := by
  have ht : s.data.take 6 = ['I', 'O', 'V', 'D', 'D', '_'] := by
    simp only [isIOVDDd, Bool.and_eq_true, decide_eq_true_eq, String.toList] at h
    exact h.1
  have h2 : s.data.take 2 = ['I', 'O'] := by
    simpa using take_of_take_eq 2 6 ht (by omega)
  have h3 : s.data.take 3 = ['I', 'O', 'V'] := by
    simpa using take_of_take_eq 3 6 ht (by omega)
  have h5 : s.data.take 5 = ['I', 'O', 'V', 'D', 'D'] := by
    simpa using take_of_take_eq 5 6 ht (by omega)
  refine ⟨?_, ?_, ?_, ?_, ?_, ?_, ?_, ?_, ?_, ?_, ?_⟩
  · intro e; rw [e] at ht; exact absurd ht (by decide)
  · intro e; rw [e] at ht; exact absurd ht (by decide)
  · intro e; rw [e] at ht; exact absurd ht (by decide)
  · intro e; rw [e] at ht; exact absurd ht (by decide)
  · intro e; rw [e] at ht; exact absurd ht (by decide)
  · intro e; rw [e] at ht; exact absurd ht (by decide)
  · intro e; rw [e] at ht; exact absurd ht (by decide)
  · simp [isVSSpin, String.toList, h3]
  · simp [isAVDDpin, String.toList, h5]
  · simp [isAVSSpin, String.toList, h5]
  · simp [secondBank, String.toList, h2]

theorem isAVDDpin_excl (s : String) (h : isAVDDpin s = true) :
    s ≠ "RESETn" ∧ s ≠ "DECOUPLE" ∧ s ≠ "USB_VBUS" ∧ s ≠ "USB_VREGI" ∧
    s ≠ "USB_VREGO" ∧ s ≠ "VDD_DREG" ∧ s ≠ "VSS_DREG" ∧
    isIOVDDd s = false ∧ isVSSpin s = false ∧ isAVSSpin s = false ∧
    secondBank s = false := by
  have ht : s.data.take 5 = ['A', 'V', 'D', 'D', '_'] := by
    simp only [isAVDDpin, Bool.and_eq_true, decide_eq_true_eq, String.toList] at h
    exact h.1
  have h2 : s.data.take 2 = ['A', 'V'] := by
    simpa using take_of_take_eq 2 5 ht (by omega)
  have h3 : s.data.take 3 = ['A', 'V', 'D'] := by
    simpa using take_of_take_eq 3 5 ht (by omega)
  have hio : isIOVDDd s = false := by
    cases hx : isIOVDDd s with
    | false => rfl
    | true =>
      have ht6 : s.data.take 6 = ['I', 'O', 'V', 'D', 'D', '_'] := by
        simp only [isIOVDDd, Bool.and_eq_true, decide_eq_true_eq, String.toList] at hx
        exact hx.1
      have hx5 : s.data.take 5 = ['I', 'O', 'V', 'D', 'D'] := by
        simpa using take_of_take_eq 5 6 ht6 (by omega)
      rw [ht] at hx5
      exact absurd hx5 (by decide)
  refine ⟨?_, ?_, ?_, ?_, ?_, ?_, ?_, hio, ?_, ?_, ?_⟩
  · intro e; rw [e] at ht; exact absurd ht (by decide)
  · intro e; rw [e] at ht; exact absurd ht (by decide)
  · intro e; rw [e] at ht; exact absurd ht (by decide)
  · intro e; rw [e] at ht; exact absurd ht (by decide)
  · intro e; rw [e] at ht; exact absurd ht (by decide)
  · intro e; rw [e] at ht; exact absurd ht (by decide)
  · intro e; rw [e] at ht; exact absurd ht (by decide)
  · simp [isVSSpin, String.toList, h3]
  · simp [isAVSSpin, String.toList, ht]
  · simp [secondBank, String.toList, h2]

theorem isAVSSpin_excl (s : String) (h : isAVSSpin s = true) :
    s ≠ "RESETn" ∧ s ≠ "DECOUPLE" ∧ s ≠ "USB_VBUS" ∧ s ≠ "USB_VREGI" ∧
    s ≠ "USB_VREGO" ∧ s ≠ "VDD_DREG" ∧ s ≠ "VSS_DREG" ∧
    isIOVDDd s = false ∧ isVSSpin s = false ∧ isAVDDpin s = false ∧
    secondBank s = false := by
  have ht : s.data.take 5 = ['A', 'V', 'S', 'S', '_'] := by
    simp only [isAVSSpin, Bool.and_eq_true, decide_eq_true_eq, String.toList] at h
    exact h.1
  have h2 : s.data.take 2 = ['A', 'V'] := by
    simpa using take_of_take_eq 2 5 ht (by omega)
  have h3 : s.data.take 3 = ['A', 'V', 'S'] := by
    simpa using take_of_take_eq 3 5 ht (by omega)
  have hio : isIOVDDd s = false := by
    cases hx : isIOVDDd s with
    | false => rfl
    | true =>
      have ht6 : s.data.take 6 = ['I', 'O', 'V', 'D', 'D', '_'] := by
        simp only [isIOVDDd, Bool.and_eq_true, decide_eq_true_eq, String.toList] at hx
        exact hx.1
      have hx3 : s.data.take 3 = ['I', 'O', 'V'] := by
        simpa using take_of_take_eq 3 6 ht6 (by omega)
      rw [h3] at hx3
      exact absurd hx3 (by decide)
  refine ⟨?_, ?_, ?_, ?_, ?_, ?_, ?_, hio, ?_, ?_, ?_⟩
  · intro e; rw [e] at ht; exact absurd ht (by decide)
  · intro e; rw [e] at ht; exact absurd ht (by decide)
  · intro e; rw [e] at ht; exact absurd ht (by decide)
  · intro e; rw [e] at ht; exact absurd ht (by decide)
  · intro e; rw [e] at ht; exact absurd ht (by decide)
  · intro e; rw [e] at ht; exact absurd ht (by decide)
  · intro e; rw [e] at ht; exact absurd ht (by decide)
  · simp [isVSSpin, String.toList, h3]
  · simp [isAVDDpin, String.toList, ht]
  · simp [secondBank, String.toList, h2]

theorem isVSSpin_excl (s : String) (h : isVSSpin s = true) :
    s ≠ "RESETn" ∧ s ≠ "DECOUPLE" ∧ s ≠ "USB_VBUS" ∧ s ≠ "USB_VREGI" ∧
    s ≠ "USB_VREGO" ∧ s ≠ "VDD_DREG" ∧ s ≠ "VSS_DREG" ∧
    isIOVDDd s = false ∧ isAVDDpin s = false ∧ isAVSSpin s = false ∧
    secondBank s = false := by
  have ht : s.data.take 3 = ['V', 'S', 'S'] := by
    simp only [isVSSpin, Bool.and_eq_true, decide_eq_true_eq, String.toList] at h
    exact h.1
  have h2 : s.data.take 2 = ['V', 'S'] := by
    simpa using take_of_take_eq 2 3 ht (by omega)
  have h1t : s.data.take 1 = ['V'] := by
    simpa using take_of_take_eq 1 3 ht (by omega)
  have hio : isIOVDDd s = false := by
    cases hx : isIOVDDd s with
    | false => rfl
    | true =>
      have ht6 : s.data.take 6 = ['I', 'O', 'V', 'D', 'D', '_'] := by
        simp only [isIOVDDd, Bool.and_eq_true, decide_eq_true_eq, String.toList] at hx
        exact hx.1
      have hx3 : s.data.take 3 = ['I', 'O', 'V'] := by
        simpa using take_of_take_eq 3 6 ht6 (by omega)
      rw [ht] at hx3
      exact absurd hx3 (by decide)
  have had : isAVDDpin s = false := by
    cases hx : isAVDDpin s with
    | false => rfl
    | true =>
      have ht5 : s.data.take 5 = ['A', 'V', 'D', 'D', '_'] := by
        simp only [isAVDDpin, Bool.and_eq_true, decide_eq_true_eq, String.toList] at hx
        exact hx.1
      have hx1 : s.data.take 1 = ['A'] := by
        simpa using take_of_take_eq 1 5 ht5 (by omega)
      rw [h1t] at hx1
      exact absurd hx1 (by decide)
  have has : isAVSSpin s = false := by
    cases hx : isAVSSpin s with
    | false => rfl
    | true =>
      have ht5 : s.data.take 5 = ['A', 'V', 'S', 'S', '_'] := by
        simp only [isAVSSpin, Bool.and_eq_true, decide_eq_true_eq, String.toList] at hx
        exact hx.1
      have hx1 : s.data.take 1 = ['A'] := by
        simpa using take_of_take_eq 1 5 ht5 (by omega)
      rw [h1t] at hx1
      exact absurd hx1 (by decide)
  refine ⟨?_, ?_, ?_, ?_, ?_, ?_, ?_, hio, had, has, ?_⟩
  · intro e; rw [e] at ht; exact absurd ht (by decide)
  · intro e; rw [e] at ht; exact absurd ht (by decide)
  · intro e; rw [e] at ht; exact absurd ht (by decide)
  · intro e; rw [e] at ht; exact absurd ht (by decide)
  · intro e; rw [e] at ht; exact absurd ht (by decide)
  · intro e; rw [e] at ht; exact absurd ht (by decide)
  · intro e; rw [e] at h; exact absurd h (by decide)
  · simp [secondBank, String.toList, h2]

theorem stepCore_iovdd (c : DevConsts) (st : LoopState) (r : DataRow)
    (hio : isIOVDDd r.name = true) :
    stepCore c st r =
      ({ st with
           iovddCounter := st.iovddCounter + 1,
           counterRowInUnit := st.counterRowInUnit + 1 },
       { name := r.name, func := r.func, pid := r.pid, x := pinRX,
         y := -(anchorMax c - (c.iovddTot : Int) + (st.iovddCounter : Int)) * pinYSpacing,
         lts := pinRightLts, unit := r.unit, ptype := r.ptype }) := by
  obtain ⟨h1, h2, h3, h4, h5, h6, h7, h8, h9, h10, h11⟩ := isIOVDDd_excl r.name hio
  simp [stepCore, hio, h1, h2, h3, h4, h5, h6, h7, h8, h9, h10, h11]

theorem stepCore_avdd (c : DevConsts) (st : LoopState) (r : DataRow)
    (ha : isAVDDpin r.name = true) :
    stepCore c st r =
      ({ st with
           avddCounter := st.avddCounter + 1,
           counterRowInUnit := st.counterRowInUnit + 1 },
       { name := r.name, func := r.func, pid := r.pid, x := pinLX,
         y := -(anchorMax c - (c.avddTot : Int) + (st.avddCounter : Int)) * pinYSpacing,
         lts := pinLeftLts, unit := r.unit, ptype := r.ptype }) := by
  obtain ⟨h1, h2, h3, h4, h5, h6, h7, h8, h9, h10, h11⟩ := isAVDDpin_excl r.name ha
  simp [stepCore, ha, h1, h2, h3, h4, h5, h6, h7, h8, h9, h10, h11]

theorem stepCore_avss (c : DevConsts) (st : LoopState) (r : DataRow)
    (ha : isAVSSpin r.name = true) :
    stepCore c st r =
      ({ st with
           avssCounter := st.avssCounter + 1,
           counterRowInUnit := st.counterRowInUnit + 1 },
       { name := r.name, func := r.func, pid := r.pid, x := pinLX,
         y := -(anchorMax c + 3 + (if c.vssdregFlag then 2 else 0) + (c.vssTot : Int)
                + (st.avssCounter : Int) - (c.avssTot : Int)) * pinYSpacing,
         lts := pinLeftLts, unit := r.unit, ptype := r.ptype }) := by
  obtain ⟨h1, h2, h3, h4, h5, h6, h7, h8, h9, h10, h11⟩ := isAVSSpin_excl r.name ha
  simp [stepCore, ha, h1, h2, h3, h4, h5, h6, h7, h8, h9, h10, h11]

theorem stepCore_vss (c : DevConsts) (st : LoopState) (r : DataRow)
    (hv : isVSSpin r.name = true) :
    stepCore c st r =
      ({ st with
           vssCounter := st.vssCounter + 1,
           counterRowInUnit := st.counterRowInUnit + 1,
           vssMax := some (anchorMax c + 3 + (if c.vssdregFlag then 2 else 0)
                           + (st.vssCounter : Int)) },
       { name := r.name, func := r.func, pid := r.pid, x := pinRX,
         y := -(anchorMax c + 3 + (if c.vssdregFlag then 2 else 0)
                + (st.vssCounter : Int)) * pinYSpacing,
         lts := pinRightLts, unit := r.unit, ptype := r.ptype }) := by
  obtain ⟨h1, h2, h3, h4, h5, h6, h7, h8, h9, h10, h11⟩ := isVSSpin_excl r.name hv
  simp [stepCore, hv, h1, h2, h3, h4, h5, h6, h7, h8, h9, h10, h11]

theorem stepCore_resetn (c : DevConsts) (st : LoopState) (r : DataRow)
    (hn : r.name = "RESETn") :
    stepCore c st r =
      ({ st with counterRowInUnit := st.counterRowInUnit + 1 },
       { name := "~RESET~", func := r.func, pid := r.pid, x := pinLX,
         y := 0, lts := pinLeftLts, unit := r.unit, ptype := "P I" }) := by
  simp +decide [stepCore, hn, isIOVDDd, isVSSpin, isAVDDpin, isAVSSpin, secondBank]

theorem stepCore_decouple (c : DevConsts) (st : LoopState) (r : DataRow)
    (hn : r.name = "DECOUPLE") :
    stepCore c st r =
      ({ st with counterRowInUnit := st.counterRowInUnit + 1 },
       { name := r.name, func := r.func, pid := r.pid, x := pinRX,
         y := 0, lts := pinRightLts, unit := r.unit, ptype := r.ptype }) := by
  simp +decide [stepCore, hn, isIOVDDd, isVSSpin, isAVDDpin, isAVSSpin, secondBank]

theorem stepCore_usbvbus (c : DevConsts) (st : LoopState) (r : DataRow)
    (hn : r.name = "USB_VBUS") :
    stepCore c st r =
      ({ st with counterRowInUnit := st.counterRowInUnit + 1 },
       { name := r.name, func := r.func, pid := r.pid, x := pinLX,
         y := -(4 * pinYSpacing), lts := pinLeftLts, unit := r.unit, ptype := r.ptype }) := by
  simp +decide [stepCore, hn, isIOVDDd, isVSSpin, isAVDDpin, isAVSSpin, secondBank]

theorem stepCore_usbvregi (c : DevConsts) (st : LoopState) (r : DataRow)
    (hn : r.name = "USB_VREGI") :
    stepCore c st r =
      ({ st with counterRowInUnit := st.counterRowInUnit + 1 },
       { name := r.name, func := r.func, pid := r.pid, x := pinLX,
         y := -(6 * pinYSpacing), lts := pinLeftLts, unit := r.unit, ptype := r.ptype }) := by
  simp +decide [stepCore, hn, isIOVDDd, isVSSpin, isAVDDpin, isAVSSpin, secondBank]

theorem stepCore_usbvrego (c : DevConsts) (st : LoopState) (r : DataRow)
    (hn : r.name = "USB_VREGO") :
    stepCore c st r =
      ({ st with counterRowInUnit := st.counterRowInUnit + 1 },
       { name := r.name, func := r.func, pid := r.pid, x := pinLX,
         y := -(7 * pinYSpacing), lts := pinLeftLts, unit := r.unit, ptype := r.ptype }) := by
  simp +decide [stepCore, hn, isIOVDDd, isVSSpin, isAVDDpin, isAVSSpin, secondBank]

theorem stepCore_vdddreg (c : DevConsts) (st : LoopState) (r : DataRow)
    (hn : r.name = "VDD_DREG") :
    stepCore c st r =
      ({ st with counterRowInUnit := st.counterRowInUnit + 1 },
       { name := r.name, func := r.func, pid := r.pid, x := pinRX,
         y := -(anchorMax c - (c.iovddTot : Int) - 2) * pinYSpacing,
         lts := pinRightLts, unit := r.unit, ptype := r.ptype }) := by
  simp +decide [stepCore, hn, isIOVDDd, isVSSpin, isAVDDpin, isAVSSpin, secondBank]

theorem stepCore_vssdreg (c : DevConsts) (st : LoopState) (r : DataRow)
    (hn : r.name = "VSS_DREG") :
    stepCore c st r =
      ({ st with counterRowInUnit := st.counterRowInUnit + 1 },
       { name := r.name, func := r.func, pid := r.pid, x := pinRX,
         y := -(3 + anchorMax c) * pinYSpacing,
         lts := pinRightLts, unit := r.unit, ptype := r.ptype }) := by
  simp +decide [stepCore, hn, isIOVDDd, isVSSpin, isAVDDpin, isAVSSpin, secondBank]

theorem stepCore_unit_func (c : DevConsts) (st : LoopState) (r : DataRow) :
    ((stepCore c st r).2).unit = r.unit ∧ ((stepCore c st r).2).func = r.func := by
  rcases name_cases r.name with hp | hn | hn | hn | hn | hn | hn | hn | hn | hn | hn | hn
  · by_cases hf : st.unitRowSubFlag = false
    · by_cases hsb : secondBank r.name = true
      · rw [stepCore_plain_bump c st r hp hf hsb]; exact ⟨rfl, rfl⟩
      · rw [stepCore_plain_noBump c st r hp (Or.inr (by simpa using hsb))]
        exact ⟨rfl, rfl⟩
    · rw [stepCore_plain_noBump c st r hp (Or.inl (by simpa using hf))]
      exact ⟨rfl, rfl⟩
  · rw [stepCore_resetn c st r hn]; exact ⟨rfl, rfl⟩
  · rw [stepCore_decouple c st r hn]; exact ⟨rfl, rfl⟩
  · rw [stepCore_iovdd c st r hn]; exact ⟨rfl, rfl⟩
  · rw [stepCore_usbvbus c st r hn]; exact ⟨rfl, rfl⟩
  · rw [stepCore_usbvregi c st r hn]; exact ⟨rfl, rfl⟩
  · rw [stepCore_usbvrego c st r hn]; exact ⟨rfl, rfl⟩
  · rw [stepCore_vdddreg c st r hn]; exact ⟨rfl, rfl⟩
  · rw [stepCore_vssdreg c st r hn]; exact ⟨rfl, rfl⟩
  · rw [stepCore_vss c st r hn]; exact ⟨rfl, rfl⟩
  · rw [stepCore_avdd c st r hn]; exact ⟨rfl, rfl⟩
  · rw [stepCore_avss c st r hn]; exact ⟨rfl, rfl⟩

theorem step_unit_eq (c : DevConsts) (st : LoopState) (r : DataRow) :
    ((step c st r).2).unit = r.unit := by
  unfold step
  exact (stepCore_unit_func c _ r).1

theorem step_func_eq (c : DevConsts) (st : LoopState) (r : DataRow) :
    ((step c st r).2).func = r.func := by
  unfold step
  exact (stepCore_unit_func c _ r).2

theorem stepCore_vssMax_or (c : DevConsts) (st : LoopState) (r : DataRow) :
    ((stepCore c st r).1).vssMax = st.vssMax ∨
      ∃ v, ((stepCore c st r).1).vssMax = some v := by
  rcases name_cases r.name with hp | hn | hn | hn | hn | hn | hn | hn | hn | hn | hn | hn
  · by_cases hf : st.unitRowSubFlag = false
    · by_cases hsb : secondBank r.name = true
      · rw [stepCore_plain_bump c st r hp hf hsb]; exact Or.inl rfl
      · rw [stepCore_plain_noBump c st r hp (Or.inr (by simpa using hsb))]
        exact Or.inl rfl
    · rw [stepCore_plain_noBump c st r hp (Or.inl (by simpa using hf))]
      exact Or.inl rfl
  · rw [stepCore_resetn c st r hn]; exact Or.inl rfl
  · rw [stepCore_decouple c st r hn]; exact Or.inl rfl
  · rw [stepCore_iovdd c st r hn]; exact Or.inl rfl
  · rw [stepCore_usbvbus c st r hn]; exact Or.inl rfl
  · rw [stepCore_usbvregi c st r hn]; exact Or.inl rfl
  · rw [stepCore_usbvrego c st r hn]; exact Or.inl rfl
  · rw [stepCore_vdddreg c st r hn]; exact Or.inl rfl
  · rw [stepCore_vssdreg c st r hn]; exact Or.inl rfl
  · rw [stepCore_vss c st r hn]; exact Or.inr ⟨_, rfl⟩
  · rw [stepCore_avdd c st r hn]; exact Or.inl rfl
  · rw [stepCore_avss c st r hn]; exact Or.inl rfl

theorem step_vssMax_or (c : DevConsts) (st : LoopState) (r : DataRow) :
    ((step c st r).1).vssMax = st.vssMax ∨
      ∃ v, ((step c st r).1).vssMax = some v := by
  unfold step
  rcases stepCore_vssMax_or c (if r.unit ≠ st.unitNumber then resetTo st else st) r with
    h | h
  · rw [h]
    split
    · exact Or.inl rfl
    · exact Or.inl rfl
  · exact Or.inr h

theorem step_vss_sets (c : DevConsts) (st : LoopState) (r : DataRow)
    (hv : isVSSpin r.name = true) :
    ∃ v, ((step c st r).1).vssMax = some v := by
  unfold step
  rw [stepCore_vss c _ r hv]
  exact ⟨_, rfl⟩

theorem stepCore_plain_out (c : DevConsts) (st : LoopState) (r : DataRow)
    (hp : plainName r.name = true) :
    ((stepCore c st r).2).name = r.name ∧ ((stepCore c st r).2).x = pinLX ∧
    ((stepCore c st r).2).lts = pinLeftLts := by
  by_cases hf : st.unitRowSubFlag = false
  · by_cases hsb : secondBank r.name = true
    · rw [stepCore_plain_bump c st r hp hf hsb]; exact ⟨rfl, rfl, rfl⟩
    · rw [stepCore_plain_noBump c st r hp (Or.inr (by simpa using hsb))]
      exact ⟨rfl, rfl, rfl⟩
  · rw [stepCore_plain_noBump c st r hp (Or.inl (by simpa using hf))]
    exact ⟨rfl, rfl, rfl⟩

theorem step_plain_out (c : DevConsts) (st : LoopState) (r : DataRow)
    (hp : plainName r.name = true) :
    ((step c st r).2).name = r.name ∧ ((step c st r).2).x = pinLX ∧
    ((step c st r).2).lts = pinLeftLts := by
  unfold step
  exact stepCore_plain_out c _ r hp

theorem runRows_len (c : DevConsts) (st : LoopState) (rs : List DataRow) :
    ((runRows c st rs).2).length = rs.length := by
  induction rs generalizing st with
  | nil => rfl
  | cons r rs ih => simp [runRows, ih]

theorem runRows_units (c : DevConsts) (st : LoopState) (rs : List DataRow) :
    ((runRows c st rs).2).map OutRow.unit = rs.map DataRow.unit := by
  induction rs generalizing st with
  | nil => rfl
  | cons r rs ih => simp [runRows, ih, step_unit_eq]

theorem runRows_vssMax_or (c : DevConsts) (st : LoopState) (rs : List DataRow) :
    ((runRows c st rs).1).vssMax = st.vssMax ∨
      ∃ v, ((runRows c st rs).1).vssMax = some v := by
  induction rs generalizing st with
  | nil => exact Or.inl rfl
  | cons r rs ih =>
    rcases ih (step c st r).1 with h | h
    · rw [runRows]
      rcases step_vssMax_or c st r with h2 | h2
      · rw [h, h2]
        exact Or.inl rfl
      · rw [h]
        exact Or.inr h2
    · exact Or.inr h

theorem runRows_vss_sets (c : DevConsts) (st : LoopState) (rs : List DataRow)
    (hex : ∃ r ∈ rs, isVSSpin r.name = true) :
    ∃ v, ((runRows c st rs).1).vssMax = some v := by
  induction rs generalizing st with
  | nil => simp at hex
  | cons r rs ih =>
    rcases hex with ⟨q, hq, hv⟩
    simp only [runRows]
    rcases List.mem_cons.mp hq with h | h
    · rw [h] at hv
      rcases runRows_vssMax_or c (step c st r).1 rs with h2 | h2
      · rw [h2]
        exact step_vss_sets c st r hv
      · exact h2
    · exact ih (step c st r).1 ⟨q, h, hv⟩

theorem sepBump_cons_zero (r : DataRow) (rs : List DataRow) :
    sepBump (r :: rs) 0 = if secondBank r.name then 1 else 0 := by
  simp [sepBump, List.take]

theorem sepBump_cons_succ (r : DataRow) (rs : List DataRow) (i : Nat) :
    sepBump (r :: rs) (i + 1) =
      if secondBank r.name then 1 else sepBump rs i := by
  by_cases h : secondBank r.name = true
  · simp [sepBump, List.take, h]
  · simp only [Bool.not_eq_true] at h
    simp [sepBump, List.take, h]

theorem runRows_plain_slots (c : DevConsts) (u : Nat) :
    ∀ (rows : List DataRow) (st : LoopState),
      (∀ r ∈ rows, r.unit = u) → (∀ r ∈ rows, plainName r.name = true) →
      st.unitNumber = u →
      ((runRows c st rows).2).map OutRow.y =
        (List.range rows.length).map
          (fun i => -(pinYSpacing *
            ((slotOf st.unitRowSubFlag st.counterRowInUnit rows i : Nat) : Int)))
  | [], st, _, _, _ => by simp [runRows]
  | r :: rs, st, hall, hplain, hst => by
    have hru : r.unit = st.unitNumber := by
      rw [hst]; exact hall r (List.mem_cons_self r rs)
    have hpr : plainName r.name = true := hplain r (List.mem_cons_self r rs)
    have hall2 : ∀ q ∈ rs, q.unit = u := fun q hq => hall q (List.mem_cons_of_mem r hq)
    have hplain2 : ∀ q ∈ rs, plainName q.name = true :=
      fun q hq => hplain q (List.mem_cons_of_mem r hq)
    simp only [runRows, step_no_reset c st r hru, List.length_cons]
    rw [List.range_succ_eq_map, List.map_cons, List.map_cons, List.map_map]
    by_cases hf : st.unitRowSubFlag = true
    · rw [stepCore_plain_noBump c st r hpr (Or.inl hf)]
      have hrec := runRows_plain_slots c u rs
        { st with counterRowInUnit := st.counterRowInUnit + 1 } hall2 hplain2 hst
      simp only at hrec
      rw [hrec]
      refine List.cons_eq_cons.mpr ⟨?_, ?_⟩
      · simp [slotOf, hf]
      · apply List.map_congr_left
        intro i _
        simp only [Function.comp, slotOf, hf, if_pos, if_true]
        push_cast
        ring
    · have hf2 : st.unitRowSubFlag = false := by simpa using hf
      by_cases hsb : secondBank r.name = true
      · rw [stepCore_plain_bump c st r hpr hf2 hsb]
        have hrec := runRows_plain_slots c u rs
          { st with unitRowSubFlag := true,
                    counterRowInUnit := st.counterRowInUnit + 2 } hall2 hplain2 hst
        simp only at hrec
        rw [hrec]
        refine List.cons_eq_cons.mpr ⟨?_, ?_⟩
        · simp [slotOf, hf2, sepBump_cons_zero, hsb]
        · apply List.map_congr_left
          intro i _
          simp only [Function.comp, slotOf, hf2, sepBump_cons_succ, hsb, if_true,
            if_false, Bool.false_eq_true]
          push_cast
          ring
      · have hsb2 : secondBank r.name = false := by simpa using hsb
        rw [stepCore_plain_noBump c st r hpr (Or.inr hsb2)]
        have hrec := runRows_plain_slots c u rs
          { st with counterRowInUnit := st.counterRowInUnit + 1 } hall2 hplain2 hst
        simp only at hrec
        rw [hrec]
        refine List.cons_eq_cons.mpr ⟨?_, ?_⟩
        · simp [slotOf, hf2, sepBump_cons_zero, hsb2]
        · apply List.map_congr_left
          intro i _
          simp only [Function.comp, slotOf, hf2, sepBump_cons_succ, hsb2, if_false,
            Bool.false_eq_true]
          push_cast
          ring

theorem sepBump_all_false (rows : List DataRow)
    (h : ∀ r ∈ rows, secondBank r.name = false) (i : Nat) : sepBump rows i = 0 := by
  have : (rows.take (i + 1)).any (fun r => secondBank r.name) = false := by
    rw [List.any_eq_false]
    intro r hr
    simp [h r (List.mem_of_mem_take hr)]
  simp [sepBump, this]

theorem runRows_catchup (c : DevConsts) (u : Nat) :
    ∀ (rows : List DataRow) (st : LoopState),
      (∀ r ∈ rows, r.unit = u) →
      (∀ r ∈ rows, plainName r.name = true ∧ secondBank r.name = false) →
      st.unitNumber < u →
      ((runRows c st rows).2).map OutRow.y =
        (List.range rows.length).map
          (fun i => if st.unitNumber + i + 1 < u + 1 then 0
            else -(pinYSpacing * ((i + st.unitNumber + 1 - u : Nat) : Int)))
  | [], st, _, _, _ => by simp [runRows]
  | r :: rs, st, hall, hgood, hlt => by
    have hru : r.unit ≠ st.unitNumber := by
      rw [hall r (List.mem_cons_self r rs)]; omega
    have hpr := (hgood r (List.mem_cons_self r rs)).1
    have hsb := (hgood r (List.mem_cons_self r rs)).2
    have hall2 : ∀ q ∈ rs, q.unit = u := fun q hq => hall q (List.mem_cons_of_mem r hq)
    have hgood2 : ∀ q ∈ rs, plainName q.name = true ∧ secondBank q.name = false :=
      fun q hq => hgood q (List.mem_cons_of_mem r hq)
    simp only [runRows, step_reset c st r hru, List.length_cons]
    rw [stepCore_plain_noBump c (resetTo st) r hpr (Or.inr hsb)]
    simp only [resetTo]
    rw [List.range_succ_eq_map, List.map_cons, List.map_cons, List.map_map]
    refine List.cons_eq_cons.mpr ⟨?_, ?_⟩
    · rw [if_pos (by omega)]
      simp
    · by_cases hcase : st.unitNumber + 1 < u
      · have hrec := runRows_catchup c u rs
          { unitNumber := st.unitNumber + 1, counterRowInUnit := 1,
            unitRowSubFlag := false, iovddCounter := 0, vssCounter := 0,
            avddCounter := 0, avssCounter := 0, vssMax := st.vssMax }
          hall2 hgood2 (by simp; omega)
        rw [hrec]
        apply List.map_congr_left
        intro i _
        simp only [Function.comp]
        by_cases hi : st.unitNumber + 1 + i + 1 < u + 1
        · rw [if_pos hi, if_pos (by omega)]
        · rw [if_neg hi, if_neg (by omega)]
          congr 1
          congr 1
          congr 1
          omega
      · have heq : st.unitNumber + 1 = u := by omega
        have hrec := runRows_plain_slots c u rs
          { unitNumber := st.unitNumber + 1, counterRowInUnit := 1,
            unitRowSubFlag := false, iovddCounter := 0, vssCounter := 0,
            avddCounter := 0, avssCounter := 0, vssMax := st.vssMax }
          hall2 (fun q hq => (hgood2 q hq).1) (by simp; omega)
        rw [hrec]
        apply List.map_congr_left
        intro i _
        simp only [Function.comp, slotOf,
          sepBump_all_false rs (fun q hq => (hgood2 q hq).2) i,
          Bool.false_eq_true, if_false, Nat.add_zero]
        rw [if_neg (show ¬(st.unitNumber + Nat.succ i + 1 < u + 1) by omega)]
        have he : 1 + i = Nat.succ i + st.unitNumber + 1 - u := by omega
        rw [he]

theorem stepCore_ctrs (c : DevConsts) (st : LoopState) (r : DataRow) :
    ((stepCore c st r).1).iovddCounter
        = st.iovddCounter + (if isIOVDDd r.name = true then 1 else 0) ∧
    ((stepCore c st r).1).avddCounter
        = st.avddCounter + (if isAVDDpin r.name = true then 1 else 0) ∧
    ((stepCore c st r).1).avssCounter
        = st.avssCounter + (if isAVSSpin r.name = true then 1 else 0) ∧
    ((stepCore c st r).1).vssCounter
        = st.vssCounter + (if isVSSpin r.name = true then 1 else 0) := by
  rcases name_cases r.name with hp | hn | hn | hn | hn | hn | hn | hn | hn | hn | hn | hn
  · obtain ⟨h1, h2, h3, h4, h5, h6, h7, h8, h9, h10, h11⟩ := plainName_parts r.name hp
    by_cases hf : st.unitRowSubFlag = false
    · by_cases hsb : secondBank r.name = true
      · rw [stepCore_plain_bump c st r hp hf hsb]; simp [h3, h9, h10, h11]
      · rw [stepCore_plain_noBump c st r hp (Or.inr (by simpa using hsb))]
        simp [h3, h9, h10, h11]
    · rw [stepCore_plain_noBump c st r hp (Or.inl (by simpa using hf))]
      simp [h3, h9, h10, h11]
  · rw [stepCore_resetn c st r hn]; simp +decide [hn]
  · rw [stepCore_decouple c st r hn]; simp +decide [hn]
  · obtain ⟨h1, h2, h3, h4, h5, h6, h7, h8, h9, h10, h11⟩ := isIOVDDd_excl r.name hn
    rw [stepCore_iovdd c st r hn]; simp [hn, h8, h9, h10]
  · rw [stepCore_usbvbus c st r hn]; simp +decide [hn]
  · rw [stepCore_usbvregi c st r hn]; simp +decide [hn]
  · rw [stepCore_usbvrego c st r hn]; simp +decide [hn]
  · rw [stepCore_vdddreg c st r hn]; simp +decide [hn]
  · rw [stepCore_vssdreg c st r hn]; simp +decide [hn]
  · obtain ⟨h1, h2, h3, h4, h5, h6, h7, h8, h9, h10, h11⟩ := isVSSpin_excl r.name hn
    rw [stepCore_vss c st r hn]; simp [hn, h8, h9, h10]
  · obtain ⟨h1, h2, h3, h4, h5, h6, h7, h8, h9, h10, h11⟩ := isAVDDpin_excl r.name hn
    rw [stepCore_avdd c st r hn]; simp [hn, h8, h9, h10]
  · obtain ⟨h1, h2, h3, h4, h5, h6, h7, h8, h9, h10, h11⟩ := isAVSSpin_excl r.name hn
    rw [stepCore_avss c st r hn]; simp [hn, h8, h9, h10]

theorem stepCore_unitNumber (c : DevConsts) (st : LoopState) (r : DataRow) :
    ((stepCore c st r).1).unitNumber = st.unitNumber := by
  rcases name_cases r.name with hp | hn | hn | hn | hn | hn | hn | hn | hn | hn | hn | hn
  · by_cases hf : st.unitRowSubFlag = false
    · by_cases hsb : secondBank r.name = true
      · rw [stepCore_plain_bump c st r hp hf hsb]
      · rw [stepCore_plain_noBump c st r hp (Or.inr (by simpa using hsb))]
    · rw [stepCore_plain_noBump c st r hp (Or.inl (by simpa using hf))]
  · rw [stepCore_resetn c st r hn]
  · rw [stepCore_decouple c st r hn]
  · rw [stepCore_iovdd c st r hn]
  · rw [stepCore_usbvbus c st r hn]
  · rw [stepCore_usbvregi c st r hn]
  · rw [stepCore_usbvrego c st r hn]
  · rw [stepCore_vdddreg c st r hn]
  · rw [stepCore_vssdreg c st r hn]
  · rw [stepCore_vss c st r hn]
  · rw [stepCore_avdd c st r hn]
  · rw [stepCore_avss c st r hn]

theorem countPred_cons_succ (p : String → Bool) (r : DataRow) (rs : List DataRow) (i : Nat) :
    countPred p (r :: rs) (i + 1) =
      (if p r.name = true then 1 else 0) + countPred p rs i := by
  by_cases h : p r.name = true
  · simp [countPred, List.take, h]
    omega
  · simp only [Bool.not_eq_true] at h
    simp [countPred, List.take, h]

set_option maxHeartbeats 1600000 in
theorem runRows_group_y (c : DevConsts) (u : Nat) :
    ∀ (rows : List DataRow) (st : LoopState),
      (∀ r ∈ rows, r.unit = u) → st.unitNumber = u →
      ∀ i, i < rows.length →
        (isIOVDDd ((rows.getD i default).name) = true →
          (((runRows c st rows).2).getD i default).y =
            -(anchorMax c - (c.iovddTot : Int)
              + ((st.iovddCounter + countPred isIOVDDd rows i : Nat) : Int))
              * pinYSpacing) ∧
        (isAVDDpin ((rows.getD i default).name) = true →
          (((runRows c st rows).2).getD i default).y =
            -(anchorMax c - (c.avddTot : Int)
              + ((st.avddCounter + countPred isAVDDpin rows i : Nat) : Int))
              * pinYSpacing) ∧
        (isAVSSpin ((rows.getD i default).name) = true →
          (((runRows c st rows).2).getD i default).y =
            -(anchorMax c + 3 + (if c.vssdregFlag then 2 else 0) + (c.vssTot : Int)
              + ((st.avssCounter + countPred isAVSSpin rows i : Nat) : Int)
              - (c.avssTot : Int)) * pinYSpacing) ∧
        (isVSSpin ((rows.getD i default).name) = true →
          (((runRows c st rows).2).getD i default).y =
            -(anchorMax c + 3 + (if c.vssdregFlag then 2 else 0)
              + ((st.vssCounter + countPred isVSSpin rows i : Nat) : Int))
              * pinYSpacing)
  | [], st, _, _, i, hi => by simp at hi
  | r :: rs, st, hall, hst, i, hi => by
    have hru : r.unit = st.unitNumber := by
      rw [hst]; exact hall r (List.mem_cons_self r rs)
    have hall2 : ∀ q ∈ rs, q.unit = u := fun q hq => hall q (List.mem_cons_of_mem r hq)
    simp only [runRows, step_no_reset c st r hru]
    cases i with
    | zero =>
      simp only [List.getD_cons_zero, countPred, List.take_zero, List.filter_nil,
        List.length_nil, Nat.add_zero]
      refine ⟨fun hx => ?_, fun hx => ?_, fun hx => ?_, fun hx => ?_⟩
      · rw [stepCore_iovdd c st r hx]
      · rw [stepCore_avdd c st r hx]
      · rw [stepCore_avss c st r hx]
      · rw [stepCore_vss c st r hx]
    | succ i =>
      have hst2 : ((stepCore c st r).1).unitNumber = u := by
        rw [stepCore_unitNumber]; exact hst
      have hih := runRows_group_y c u rs (stepCore c st r).1 hall2 hst2 i
        (by simpa using hi)
      obtain ⟨hc1, hc2, hc3, hc4⟩ := stepCore_ctrs c st r
      simp only [List.getD_cons_succ]
      refine ⟨fun hx => ?_, fun hx => ?_, fun hx => ?_, fun hx => ?_⟩
      · rw [hih.1 hx, hc1, countPred_cons_succ, Nat.add_assoc]
      · rw [hih.2.1 hx, hc2, countPred_cons_succ, Nat.add_assoc]
      · rw [hih.2.2.1 hx, hc3, countPred_cons_succ, Nat.add_assoc]
      · rw [hih.2.2.2 hx, hc4, countPred_cons_succ, Nat.add_assoc]

theorem insertionSort_of_all_le {R : DataRow → DataRow → Prop} [DecidableRel R]
    (l : List DataRow) (h : ∀ a ∈ l, ∀ b ∈ l, R a b) :
    List.insertionSort R l = l :=
  List.Sorted.insertionSort_eq (List.pairwise_of_forall_mem_list h)

/-- With all rows in the same unit, the second (unit-key) sort pass of
sort_table keeps the name-sorted list unchanged. -/
theorem sortTable_const_unit (rows : List DataRow) (u : Nat)
    (h : ∀ r ∈ rows, r.unit = u) :
    sortTable rows = List.insertionSort rowNameLe rows := by
  unfold sortTable
  apply insertionSort_of_all_le
  intro a ha b hb
  have ha2 := (List.mem_insertionSort rowNameLe).mp ha
  have hb2 := (List.mem_insertionSort rowNameLe).mp hb
  unfold rowUnitLe
  rw [h a ha2, h b hb2]
  exact akeysLt_irrefl _

theorem sortTable_perm (rows : List DataRow) : (sortTable rows).Perm rows := by
  unfold sortTable
  exact (List.perm_insertionSort rowUnitLe _).trans (List.perm_insertionSort rowNameLe rows)

theorem sortTable_sorted_units (rows : List DataRow) :
    (sortTable rows).Pairwise (fun a b => a.unit ≤ b.unit) := by
  have hs : (sortTable rows).Sorted rowUnitLe :=
    List.sorted_insertionSort rowUnitLe (List.insertionSort rowNameLe rows)
  refine hs.imp ?_
  intro a b hab
  unfold rowUnitLe at hab
  by_contra hlt
  have h1 : b.unit < a.unit := by omega
  have : akeysLt (unitKey b.unit) (unitKey a.unit) = true := by
    simp [akeysLt, unitKey, lexLtB, akeyLt, charLtB, h1]
  rw [this] at hab
  exact absurd hab (by simp)

theorem chunk_spec : ∀ l : List OutRow,
    (((chunkByUnit l).map Prod.snd).flatten = l) ∧
    (∀ p ∈ chunkByUnit l, p.2 ≠ [] ∧ ∀ x ∈ p.2, x.unit = p.1) ∧
    ((chunkByUnit l).Chain' (fun p q => p.1 ≠ q.1)) ∧
    (∀ r t, l = r :: t → ∃ g rest, chunkByUnit l = (r.unit, r :: g) :: rest)
  | [] => by simp [chunkByUnit]
  | r :: rs => by
    obtain ⟨ih1, ih2, ih3, ih4⟩ := chunk_spec rs
    cases hc : chunkByUnit rs with
    | nil =>
      have hrs : rs = [] := by rw [hc] at ih1; simpa using ih1.symm
      subst hrs
      refine ⟨by simp [chunkByUnit], ?_, by simp [chunkByUnit], ?_⟩
      · intro p hp
        simp only [chunkByUnit, List.mem_singleton] at hp
        subst hp
        exact ⟨by simp, by simp⟩
      · intro q t hqt
        obtain ⟨hq, ht⟩ := List.cons_eq_cons.mp hqt
        subst hq
        exact ⟨[], [], by simp [chunkByUnit]⟩
    | cons p t =>
      obtain ⟨u, g⟩ := p
      have hhead : ∃ q qs, rs = q :: qs := by
        cases rs with
        | nil => simp [chunkByUnit] at hc
        | cons q qs => exact ⟨q, qs, rfl⟩
      obtain ⟨q, qs, hrs⟩ := hhead
      obtain ⟨g2, rest2, hg2⟩ := ih4 q qs hrs
      rw [hc] at hg2
      obtain ⟨huq, hgr⟩ := List.cons_eq_cons.mp hg2
      have hu : u = q.unit := (Prod.mk.injEq _ _ _ _).mp huq |>.1
      by_cases hr : r.unit = u
      · have hchunk : chunkByUnit (r :: rs) = (u, r :: g) :: t := by
          simp only [chunkByUnit, hc]
          rw [if_pos hr]
        rw [hc] at ih1 ih2 ih3
        refine ⟨?_, ?_, ?_, ?_⟩
        · rw [hchunk]
          simpa using ih1
        · intro pp hpp
          rw [hchunk] at hpp
          rcases List.mem_cons.mp hpp with h | h
          · subst h
            refine ⟨by simp, ?_⟩
            intro x hx
            rcases List.mem_cons.mp hx with h2 | h2
            · subst h2; exact hr
            · exact (ih2 (u, g) (List.mem_cons_self _ _)).2 x h2
          · exact ih2 pp (List.mem_cons_of_mem _ h)
        · rw [hchunk]
          cases t with
          | nil => simp
          | cons w ws =>
            rw [List.chain'_cons] at ih3 ⊢
            exact ⟨ih3.1, ih3.2⟩
        · intro rr tt hrt
          obtain ⟨hq2, ht2⟩ := List.cons_eq_cons.mp hrt
          subst hq2
          exact ⟨g, t, by rw [hchunk, hr]⟩
      · have hchunk : chunkByUnit (r :: rs) = (r.unit, [r]) :: (u, g) :: t := by
          simp only [chunkByUnit, hc]
          rw [if_neg hr]
        rw [hc] at ih1 ih2 ih3
        refine ⟨?_, ?_, ?_, ?_⟩
        · rw [hchunk]
          simpa using ih1
        · intro pp hpp
          rw [hchunk] at hpp
          rcases List.mem_cons.mp hpp with h | h
          · subst h
            exact ⟨by simp, by simp⟩
          · exact ih2 pp h
        · rw [hchunk]
          rw [List.chain'_cons]
          exact ⟨fun e => hr e, ih3⟩
        · intro rr tt hrt
          obtain ⟨hq2, ht2⟩ := List.cons_eq_cons.mp hrt
          subst hq2
          exact ⟨[], (u, g) :: t, by rw [hchunk]⟩

theorem chain'_ne_pairwise_lt :
    ∀ l : List (Nat × List OutRow),
      l.Chain' (fun p q => p.1 ≠ q.1) → l.Pairwise (fun p q => p.1 ≤ q.1) →
      l.Pairwise (fun p q => p.1 < q.1)
  | [], _, _ => List.Pairwise.nil
  | p :: t, h1, h2 => by
    rw [List.pairwise_cons] at h2 ⊢
    have hih := chain'_ne_pairwise_lt t h1.tail h2.2
    refine ⟨?_, hih⟩
    intro q hq
    cases t with
    | nil => simp at hq
    | cons b t2 =>
      have hpb : p.1 < b.1 := by
        have hne := (List.chain'_cons.mp h1).1
        have hle := h2.1 b (List.mem_cons_self b t2)
        omega
      rcases List.mem_cons.mp hq with h | h
      · rw [h]; exact hpb
      · have hbq : b.1 < q.1 := (List.pairwise_cons.mp hih).1 q h
        omega

theorem chunk_keys_lt (l : List OutRow)
    (hsort : l.Pairwise (fun a b => a.unit ≤ b.unit)) :
    (chunkByUnit l).Pairwise (fun p q => p.1 < q.1) := by
  obtain ⟨hjoin, hgroups, hchain, _⟩ := chunk_spec l
  have hle : (chunkByUnit l).Pairwise (fun p q => p.1 ≤ q.1) := by
    rw [← hjoin] at hsort
    have h2 := (List.pairwise_flatten.mp hsort).2
    rw [List.pairwise_map] at h2
    refine h2.imp_of_mem ?_
    intro p q hp hq hpq
    obtain ⟨x, hx⟩ := List.exists_mem_of_ne_nil p.2 (hgroups p hp).1
    obtain ⟨y, hy⟩ := List.exists_mem_of_ne_nil q.2 (hgroups q hq).1
    have := hpq x hx y hy
    rw [(hgroups p hp).2 x hx, (hgroups q hq).2 y hy] at this
    exact this
  exact chain'_ne_pairwise_lt _ hchain hle

theorem flatten_filter_unit :
    ∀ (cs : List (Nat × List OutRow)) (u : Nat),
      (∀ p ∈ cs, ∀ x ∈ p.2, x.unit = p.1) →
      ((cs.map Prod.snd).flatten).filter (fun x => x.unit = u)
        = ((cs.filter (fun p => p.1 = u)).map Prod.snd).flatten
  | [], u, _ => rfl
  | p :: t, u, hg => by
    have hih := flatten_filter_unit t u (fun q hq => hg q (List.mem_cons_of_mem p hq))
    simp only [List.map_cons, List.flatten_cons, List.filter_append, hih]
    by_cases hp : p.1 = u
    · rw [List.filter_cons_of_pos (by simp [hp])]
      have : p.2.filter (fun x => x.unit = u) = p.2 := by
        rw [List.filter_eq_self]
        intro x hx
        simp [hg p (List.mem_cons_self p t) x hx, hp]
      simp [this]
    · rw [List.filter_cons_of_neg (by simp [hp])]
      have : p.2.filter (fun x => x.unit = u) = [] := by
        rw [List.filter_eq_nil_iff]
        intro x hx
        simp [hg p (List.mem_cons_self p t) x hx, hp]
      simp [this]

theorem keys_filter_single :
    ∀ (cs : List (Nat × List OutRow)),
      cs.Pairwise (fun p q => p.1 ≠ q.1) →
      ∀ (u : Nat) (g : List OutRow), (u, g) ∈ cs →
      cs.filter (fun p => p.1 = u) = [(u, g)]
  | [], _, u, g, hm => by simp at hm
  | q :: t, hnd, u, g, hm => by
    rcases List.mem_cons.mp hm with h | h
    · subst h
      rw [List.filter_cons_of_pos (by simp)]
      have : t.filter (fun p => p.1 = u) = [] := by
        rw [List.filter_eq_nil_iff]
        intro p hp
        have := (List.pairwise_cons.mp hnd).1 p hp
        simp only [ne_eq] at this
        simp only [decide_eq_true_eq]
        omega
      rw [this]
    · have hqu : q.1 ≠ u := by
        intro e
        have := (List.pairwise_cons.mp hnd).1 (u, g) h
        rw [e] at this
        exact this rfl
      rw [List.filter_cons_of_neg (by simpa using hqu)]
      exact keys_filter_single t (List.pairwise_cons.mp hnd).2 u g h

theorem chunk_group_eq_filter (l : List OutRow)
    (hsort : l.Pairwise (fun a b => a.unit ≤ b.unit))
    (u : Nat) (g : List OutRow) (hm : (u, g) ∈ chunkByUnit l) :
    l.filter (fun x => x.unit = u) = g := by
  obtain ⟨hjoin, hgroups, _, _⟩ := chunk_spec l
  have hnd : (chunkByUnit l).Pairwise (fun p q => p.1 ≠ q.1) :=
    (chunk_keys_lt l hsort).imp (fun h => by omega)
  have h1 := flatten_filter_unit (chunkByUnit l) u (fun p hp => (hgroups p hp).2)
  rw [hjoin] at h1
  rw [h1, keys_filter_single (chunkByUnit l) hnd u g hm]
  simp

theorem chunk_count (l : List OutRow)
    (hsort : l.Pairwise (fun a b => a.unit ≤ b.unit)) (u : Nat) :
    ((chunkByUnit l).filter (fun p => p.1 = u)).length
      = if u ∈ l.map OutRow.unit then 1 else 0 := by
  obtain ⟨hjoin, hgroups, _, _⟩ := chunk_spec l
  have hnd : (chunkByUnit l).Pairwise (fun p q => p.1 ≠ q.1) :=
    (chunk_keys_lt l hsort).imp (fun h => by omega)
  by_cases hmem : u ∈ l.map OutRow.unit
  · rw [if_pos hmem]
    obtain ⟨x, hx, hux⟩ := List.mem_map.mp hmem
    rw [← hjoin] at hx
    obtain ⟨gl, hgl, hxg⟩ := List.mem_flatten.mp hx
    obtain ⟨p, hp, hps⟩ := List.mem_map.mp hgl
    have hxu : x.unit = p.1 := (hgroups p hp).2 x (hps ▸ hxg)
    have hpu : p.1 = u := by rw [← hxu, hux]
    have hpm : (u, p.2) ∈ chunkByUnit l := by
      have : p = (u, p.2) := by
        rw [← hpu]
      rw [← this]
      exact hp
    rw [keys_filter_single (chunkByUnit l) hnd u p.2 hpm]
    rfl
  · rw [if_neg hmem]
    have : (chunkByUnit l).filter (fun p => p.1 = u) = [] := by
      rw [List.filter_eq_nil_iff]
      intro p hp hpu
      simp only [decide_eq_true_eq] at hpu
      obtain ⟨x, hx⟩ := List.exists_mem_of_ne_nil p.2 (hgroups p hp).1
      apply hmem
      rw [← hjoin]
      refine List.mem_map.mpr ⟨x, ?_, ?_⟩
      · exact List.mem_flatten.mpr ⟨p.2, List.mem_map.mpr ⟨p, hp, rfl⟩, hx⟩
      · rw [(hgroups p hp).2 x hx, hpu]
    rw [this]
    rfl

theorem runRows_filter_nameFunc (c : DevConsts) (u : Nat) :
    ∀ (rs : List DataRow) (st : LoopState),
      (∀ r ∈ rs, r.unit = u → plainName r.name = true) →
      (((runRows c st rs).2).filter (fun o => o.unit = u)).map
          (fun o => o.name ++ o.func)
        = (rs.filter (fun r => r.unit = u)).map (fun r => r.name ++ r.func)
  | [], st, _ => rfl
  | r :: rs, st, hp => by
    have hih := runRows_filter_nameFunc c u rs (step c st r).1
      (fun q hq => hp q (List.mem_cons_of_mem r hq))
    simp only [runRows]
    by_cases hu : r.unit = u
    · rw [List.filter_cons_of_pos (by simp [step_unit_eq, hu]),
        List.filter_cons_of_pos (by simp [hu])]
      simp only [List.map_cons, hih]
      refine List.cons_eq_cons.mpr ⟨?_, rfl⟩
      rw [(step_plain_out c st r (hp r (List.mem_cons_self r rs) hu)).1,
        step_func_eq]
    · rw [List.filter_cons_of_neg (by simp [step_unit_eq, hu]),
        List.filter_cons_of_neg (by simp [hu])]
      exact hih

theorem foldl_max_perm {l1 l2 : List Int} (h : l1.Perm l2) :
    ∀ a : Int, l1.foldl max a = l2.foldl max a := by
  induction h with
  | nil => intro a; rfl
  | cons x _ ih => intro a; simp only [List.foldl_cons]; exact ih _
  | swap x y l =>
    intro a
    simp only [List.foldl_cons]
    rw [sup_right_comm]
  | trans _ _ ih1 ih2 => intro a; rw [ih1 a, ih2 a]

theorem optMap_forall2 (f : α → Option β) :
    ∀ (l : List α) (bs : List β), optMap f l = some bs →
      List.Forall₂ (fun a b => f a = some b) l bs
  | [], bs, h => by
    simp only [optMap, Option.some.injEq] at h
    subst h
    exact List.Forall₂.nil
  | a :: as, bs, h => by
    simp only [optMap] at h
    cases hfa : f a with
    | none => rw [hfa] at h; simp at h
    | some b =>
      rw [hfa] at h
      cases hrest : optMap f as with
      | none => rw [hrest] at h; simp at h
      | some cs =>
        rw [hrest] at h
        simp only [Option.some.injEq] at h
        subst h
        exact List.Forall₂.cons hfa (optMap_forall2 f as cs hrest)

theorem optMap_isSome (f : α → Option β) :
    ∀ l : List α, (∀ a ∈ l, ∃ b, f a = some b) → ∃ bs, optMap f l = some bs
  | [], _ => ⟨[], rfl⟩
  | a :: as, h => by
    obtain ⟨b, hb⟩ := h a (List.mem_cons_self a as)
    obtain ⟨cs, hcs⟩ := optMap_isSome f as (fun q hq => h q (List.mem_cons_of_mem a hq))
    exact ⟨b :: cs, by simp [optMap, hb, hcs]⟩

theorem forall2_mem_right {R : α → β → Prop} :
    ∀ {l : List α} {bs : List β}, List.Forall₂ R l bs → ∀ b ∈ bs, ∃ a ∈ l, R a b := by
  intro l bs h
  induction h with
  | nil => intro b hb; simp at hb
  | cons hr _ ih =>
    intro b hb
    rcases List.mem_cons.mp hb with h2 | h2
    · subst h2
      exact ⟨_, List.mem_cons_self _ _, hr⟩
    · obtain ⟨a, ha, har⟩ := ih b h2
      exact ⟨a, List.mem_cons_of_mem _ ha, har⟩

theorem forall2_filter_length {R : α → β → Prop} {p : α → Bool} {q : β → Bool} :
    ∀ {l : List α} {bs : List β}, List.Forall₂ R l bs →
      (∀ a b, R a b → (p a = true ↔ q b = true)) →
      (bs.filter q).length = (l.filter p).length := by
  intro l bs h hiff
  induction h with
  | nil => rfl
  | cons hr hrest ih =>
    rename_i a b as cs
    by_cases hpa : p a = true
    · rw [List.filter_cons_of_pos hpa, List.filter_cons_of_pos ((hiff a b hr).mp hpa)]
      simp [ih]
    · rw [List.filter_cons_of_neg hpa,
        List.filter_cons_of_neg (fun hq => hpa ((hiff a b hr).mpr hq))]
      exact ih

theorem take_eq_append_iff {l key : List Char} (n : Nat) (hk : key.length = n) :
    l.take n = key ↔ ∃ t, l = key ++ t := by
  constructor
  · intro h
    exact ⟨l.drop n, by rw [← h, List.take_append_drop]⟩
  · rintro ⟨t, rfl⟩
    rw [← hk, List.take_left]

theorem take5_vss_iff (l : List Char) :
    l.take 5 = ['V', 'S', 'S'] ↔ l = ['V', 'S', 'S'] := by
  constructor
  · intro h
    have hlen : l.length = 3 := by
      have := congrArg List.length h
      simp [List.length_take] at this
      omega
    rw [← h, List.take_of_length_le (by omega)]
  · intro h
    rw [h]
    rfl

theorem count5_ne_zero_iff (names : List String) (key : List Char) :
    count5 names key ≠ 0 ↔ ∃ n ∈ names, n.toList.take 5 = key := by
  unfold count5
  rw [Ne, List.length_eq_zero, List.filter_eq_nil_iff]
  push_neg
  simp

theorem unitBoxOf_unit (cnt : Nat → Nat) (vm : Option Int) (g : Nat × List OutRow)
    (b : UnitBox) (h : unitBoxOf cnt vm g = some b) : b.unit = g.1 := by
  unfold unitBoxOf at h
  by_cases hlt : g.1 < 4
  · rw [if_pos hlt] at h
    simp only [Option.some.injEq] at h
    rw [← h]
  · rw [if_neg hlt] at h
    cases vm with
    | none => simp at h
    | some v =>
      simp only [Option.some.injEq] at h
      rw [← h]

theorem unitBoxOf_isSome (cnt : Nat → Nat) (vm : Option Int) (g : Nat × List OutRow)
    (h : g.1 < 4 ∨ ∃ v, vm = some v) : ∃ b, unitBoxOf cnt vm g = some b := by
  unfold unitBoxOf
  rcases h with h | ⟨v, rfl⟩
  · rw [if_pos h]
    exact ⟨_, rfl⟩
  · by_cases hlt : g.1 < 4
    · rw [if_pos hlt]
      exact ⟨_, rfl⟩
    · rw [if_neg hlt]
      exact ⟨_, rfl⟩

/-- Claim C1 counterexample: the name FOO_BAR matches neither a GPIO
pattern nor any power/special prefix, and the stage-2 substitutions
assign it no unit at all, rather than the unit 4 the claim states. -/
theorem C1_counterexample :
    classify "FOO_BAR" = none ∧ classify "FOO_BAR" ≠ some 4 := by decide

/-- Claim C1 amended: classification is a pure function of the name with
range contained in 1..4: a name with a recognized power/special prefix
is assigned unit 4; otherwise a name ending in PA/PB plus a 1-2 digit
suffix gets unit 1, failing that a PC/PD name gets unit 2, failing that
a PE/PF name gets unit 3; and a name matching no pattern at all is
assigned no unit (the row then has too few columns and the run fails),
not the unit 4 the original claim states. -/
theorem C1_amended (name : String) :
    (∀ u, classify name = some u → 1 ≤ u ∧ u ≤ 4) ∧
    (powerPfx name = true → classify name = some 4) ∧
    (powerPfx name = false →
      ((gpioSuffix 'P' 'A' name || gpioSuffix 'P' 'B' name) = true →
        classify name = some 1) ∧
      ((gpioSuffix 'P' 'A' name || gpioSuffix 'P' 'B' name) = false →
        (gpioSuffix 'P' 'C' name || gpioSuffix 'P' 'D' name) = true →
        classify name = some 2) ∧
      ((gpioSuffix 'P' 'A' name || gpioSuffix 'P' 'B' name) = false →
        (gpioSuffix 'P' 'C' name || gpioSuffix 'P' 'D' name) = false →
        (gpioSuffix 'P' 'E' name || gpioSuffix 'P' 'F' name) = true →
        classify name = some 3)) ∧
    (classify name = none ↔
      (powerPfx name = false ∧
       gpioSuffix 'P' 'A' name = false ∧ gpioSuffix 'P' 'B' name = false ∧
       gpioSuffix 'P' 'C' name = false ∧ gpioSuffix 'P' 'D' name = false ∧
       gpioSuffix 'P' 'E' name = false ∧ gpioSuffix 'P' 'F' name = false)) := by
  refine ⟨?_, ?_, ?_, ?_, ?_⟩
  · intro u hu
    unfold classify at hu
    split_ifs at hu <;> simp_all <;> omega
  · intro hp
    unfold classify
    rw [if_pos hp]
  · intro hp
    refine ⟨?_, ?_, ?_⟩
    · intro h1
      unfold classify
      rw [if_neg (by simp [hp]), if_pos h1]
    · intro h1 h2
      unfold classify
      rw [if_neg (by simp [hp]), if_neg (by simp [h1]), if_pos h2]
    · intro h1 h2 h3
      unfold classify
      rw [if_neg (by simp [hp]), if_neg (by simp [h1]), if_neg (by simp [h2]),
        if_pos h3]
  · intro hn
    unfold classify at hn
    split_ifs at hn with h1 h2 h3 h4 <;> simp_all [not_or]
  · rintro ⟨hp, ha, hb, hc, hd, he, hf⟩
    unfold classify
    simp [hp, ha, hb, hc, hd, he, hf]

/-- Claim C1 amended witness at the GPIO name PC5, classified to
unit 2. -/
theorem C1_amended_witness :
    ((∀ u, classify "PC5" = some u → 1 ≤ u ∧ u ≤ 4) ∧
     (powerPfx "PC5" = true → classify "PC5" = some 4) ∧
     (powerPfx "PC5" = false →
       ((gpioSuffix 'P' 'A' "PC5" || gpioSuffix 'P' 'B' "PC5") = true →
         classify "PC5" = some 1) ∧
       ((gpioSuffix 'P' 'A' "PC5" || gpioSuffix 'P' 'B' "PC5") = false →
         (gpioSuffix 'P' 'C' "PC5" || gpioSuffix 'P' 'D' "PC5") = true →
         classify "PC5" = some 2) ∧
       ((gpioSuffix 'P' 'A' "PC5" || gpioSuffix 'P' 'B' "PC5") = false →
         (gpioSuffix 'P' 'C' "PC5" || gpioSuffix 'P' 'D' "PC5") = false →
         (gpioSuffix 'P' 'E' "PC5" || gpioSuffix 'P' 'F' "PC5") = true →
         classify "PC5" = some 3)) ∧
     (classify "PC5" = none ↔
       (powerPfx "PC5" = false ∧
        gpioSuffix 'P' 'A' "PC5" = false ∧ gpioSuffix 'P' 'B' "PC5" = false ∧
        gpioSuffix 'P' 'C' "PC5" = false ∧ gpioSuffix 'P' 'D' "PC5" = false ∧
        gpioSuffix 'P' 'E' "PC5" = false ∧ gpioSuffix 'P' 'F' "PC5" = false))) ∧
    classify "PC5" = some 2 :=
  ⟨C1_amended "PC5", by decide⟩

/-- Claim C2 counterexample: the unit-4 pin RESETX (classified to unit 4
by its RESE prefix, matching none of the placement patterns) is placed
at vertical slot 1 (y = -100), not slot 0, because the unrecognized pin
keeps the default position built from the running per-unit row counter,
and one unit-4 row (AVDD_0) precedes it in sorted order. -/
theorem C2_counterexample :
    classify "RESETX" = some 4 ∧
    ((pipeline c2rows).filter (fun o => o.name = "RESETX")).map
        (fun o => (o.x, o.y, o.lts))
      = [(pinLX, -100, pinLeftLts)] ∧
    (-100 : Int) ≠ -(pinYSpacing * 0) := by decide

/-- Claim C2 amended: a pin matching none of the eleven placement
patterns (and not the second-bank separator pattern) is emitted, without
failure, on the left side with the default vertical slot equal to the
per-unit row counter at that row: 0 when the row triggered the counter
reset, the current counter value otherwise — slot 0 only for the first
row of the unit, not in general. -/
theorem C2_amended (c : DevConsts) (st : LoopState) (r : DataRow)
    (hp : plainName r.name = true) (hsb : secondBank r.name = false) :
    ((step c st r).2).x = pinLX ∧ ((step c st r).2).lts = pinLeftLts ∧
    ((step c st r).2).y =
      -(pinYSpacing *
        (((if r.unit ≠ st.unitNumber then 0 else st.counterRowInUnit) : Nat) : Int)) := by
  by_cases hu : r.unit = st.unitNumber
  · rw [step_no_reset c st r hu, stepCore_plain_noBump c st r hp (Or.inr hsb)]
    rw [if_neg (by simp [hu])]
    exact ⟨rfl, rfl, rfl⟩
  · rw [step_reset c st r hu, stepCore_plain_noBump c (resetTo st) r hp (Or.inr hsb)]
    rw [if_pos hu]
    simp [resetTo]

/-- Claim C2 amended witness: RESETX processed mid-unit with row counter
3 lands at slot 3, on the left. -/
theorem C2_amended_witness :
    plainName "RESETX" = true ∧ secondBank "RESETX" = false ∧
    (((step (devConsts []) c2state (pwRow "RESETX")).2).x = pinLX ∧
     ((step (devConsts []) c2state (pwRow "RESETX")).2).lts = pinLeftLts ∧
     ((step (devConsts []) c2state (pwRow "RESETX")).2).y =
       -(pinYSpacing *
         (((if (pwRow "RESETX").unit ≠ c2state.unitNumber then 0
            else c2state.counterRowInUnit) : Nat) : Int))) :=
  ⟨by decide, by decide,
   C2_amended (devConsts []) c2state (pwRow "RESETX") (by decide) (by decide)⟩

/-- Claim C3 counterexample: with pins USB_VBUS and AVDD_0 (no
USB_VREGO), the code computes anchor 12 because USB_VBUS already sets
usbv_flag, while the claim formula gives 6. -/
theorem C3_counterexample :
    anchorMax (devConsts ["USB_VBUS", "AVDD_0"]) = 12 ∧
    anchorPerClaimC3 ["USB_VBUS", "AVDD_0"] = 6 ∧
    anchorMax (devConsts ["USB_VBUS", "AVDD_0"])
      ≠ anchorPerClaimC3 ["USB_VBUS", "AVDD_0"] := by decide

/-- Claim C3 amended: the anchor is
max((anyUsbV ? 7 : 0) + 4 + avddCount, iovddCount + 6), where anyUsbV
holds exactly when some pin name has first five characters USB_V
(USB_VBUS, USB_VREGI or USB_VREGO alike). -/
theorem C3_amended (names : List String) :
    anchorMax (devConsts names) =
      max ((if names.any (fun n => decide (n.toList.take 5 = ['U', 'S', 'B', '_', 'V']))
              then 7 else 0)
            + 4 + ((devConsts names).avddTot : Int))
          (((devConsts names).iovddTot : Int) + 6) := by
  have hb : (devConsts names).usbvFlag
      = names.any (fun n => decide (n.toList.take 5 = ['U', 'S', 'B', '_', 'V'])) := by
    rw [Bool.eq_iff_iff]
    simp only [devConsts, bne_iff_ne, List.any_eq_true, decide_eq_true_eq]
    exact count5_ne_zero_iff names ['U', 'S', 'B', '_', 'V']
  unfold anchorMax
  rw [hb]

/-- Claim C3 amended witness. -/
theorem C3_amended_witness :
    anchorMax (devConsts ["USB_VBUS", "AVDD_0"]) =
      max ((if ["USB_VBUS", "AVDD_0"].any
              (fun n => decide (n.toList.take 5 = ['U', 'S', 'B', '_', 'V']))
              then 7 else 0)
            + 4 + ((devConsts ["USB_VBUS", "AVDD_0"]).avddTot : Int))
          (((devConsts ["USB_VBUS", "AVDD_0"]).iovddTot : Int) + 6) :=
  C3_amended ["USB_VBUS", "AVDD_0"]

/-- Claim C4 counterexample: the code's vss_tot counts names whose
first-five-character slice equals VSS, which no name of the form VSS_n
satisfies; with pins VSS_1 and VSS_2 the code counts 0, the claim 2. -/
theorem C4_counterexample :
    (devConsts ["VSS_1", "VSS_2"]).vssTot = 0 ∧
    vssCountPerClaimC4 ["VSS_1", "VSS_2"] = 2 ∧
    (devConsts ["VSS_1", "VSS_2"]).vssTot ≠ vssCountPerClaimC4 ["VSS_1", "VSS_2"] := by
  decide

/-- Claim C4 amended: for the five-character group keys AVDD_, AVSS_ and
IOVDD the first-five-character count coincides with a true prefix match
(so numeric suffixes share a group), but vssCount counts exactly the
pins whose whole name is VSS. -/
theorem C4_amended (names : List String) :
    (devConsts names).avddTot
      = (names.filter (fun n => ['A', 'V', 'D', 'D', '_'].isPrefixOf n.toList)).length ∧
    (devConsts names).avssTot
      = (names.filter (fun n => ['A', 'V', 'S', 'S', '_'].isPrefixOf n.toList)).length ∧
    (devConsts names).iovddTot
      = (names.filter (fun n => ['I', 'O', 'V', 'D', 'D'].isPrefixOf n.toList)).length ∧
    (devConsts names).vssTot
      = (names.filter (fun n => n = "VSS")).length := by
  refine ⟨?_, ?_, ?_, ?_⟩
  · apply congrArg List.length
    apply List.filter_congr
    intro n _
    rw [Bool.eq_iff_iff, decide_eq_true_eq, List.isPrefixOf_iff_prefix,
      take_eq_append_iff 5 (by decide)]
    exact Iff.intro (fun ⟨t, ht⟩ => ⟨t, ht.symm⟩) (fun ⟨t, ht⟩ => ⟨t, ht.symm⟩)
  · apply congrArg List.length
    apply List.filter_congr
    intro n _
    rw [Bool.eq_iff_iff, decide_eq_true_eq, List.isPrefixOf_iff_prefix,
      take_eq_append_iff 5 (by decide)]
    exact Iff.intro (fun ⟨t, ht⟩ => ⟨t, ht.symm⟩) (fun ⟨t, ht⟩ => ⟨t, ht.symm⟩)
  · apply congrArg List.length
    apply List.filter_congr
    intro n _
    rw [Bool.eq_iff_iff, decide_eq_true_eq, List.isPrefixOf_iff_prefix,
      take_eq_append_iff 5 (by decide)]
    exact Iff.intro (fun ⟨t, ht⟩ => ⟨t, ht.symm⟩) (fun ⟨t, ht⟩ => ⟨t, ht.symm⟩)
  · apply congrArg List.length
    apply List.filter_congr
    intro n _
    rw [Bool.eq_iff_iff, decide_eq_true_eq, decide_eq_true_eq, take5_vss_iff]
    constructor
    · intro h
      apply String.ext
      exact h
    · intro h
      rw [h]
      rfl

/-- Claim C4 amended witness: AVDD_0 and AVDD_1 count together in the
AVDD group, while VSS_1 and VSS_2 are not counted as VSS pins. -/
theorem C4_amended_witness :
    ((devConsts ["AVDD_0", "AVDD_1", "VSS_1", "VSS_2", "VSS"]).avddTot
        = ((["AVDD_0", "AVDD_1", "VSS_1", "VSS_2", "VSS"] : List String).filter
            (fun n => ['A', 'V', 'D', 'D', '_'].isPrefixOf n.toList)).length ∧
      (devConsts ["AVDD_0", "AVDD_1", "VSS_1", "VSS_2", "VSS"]).avssTot
        = ((["AVDD_0", "AVDD_1", "VSS_1", "VSS_2", "VSS"] : List String).filter
            (fun n => ['A', 'V', 'S', 'S', '_'].isPrefixOf n.toList)).length ∧
      (devConsts ["AVDD_0", "AVDD_1", "VSS_1", "VSS_2", "VSS"]).iovddTot
        = ((["AVDD_0", "AVDD_1", "VSS_1", "VSS_2", "VSS"] : List String).filter
            (fun n => ['I', 'O', 'V', 'D', 'D'].isPrefixOf n.toList)).length ∧
      (devConsts ["AVDD_0", "AVDD_1", "VSS_1", "VSS_2", "VSS"]).vssTot
        = ((["AVDD_0", "AVDD_1", "VSS_1", "VSS_2", "VSS"] : List String).filter
            (fun n => n = "VSS")).length) ∧
    (devConsts ["AVDD_0", "AVDD_1", "VSS_1", "VSS_2", "VSS"]).avddTot = 2 ∧
    (devConsts ["AVDD_0", "AVDD_1", "VSS_1", "VSS_2", "VSS"]).vssTot = 1 :=
  ⟨C4_amended ["AVDD_0", "AVDD_1", "VSS_1", "VSS_2", "VSS"], by decide, by decide⟩

theorem runRows_out_entry (c : DevConsts) (st : LoopState) (r : DataRow)
    (rs : List DataRow) (h : r.unit = st.unitNumber + 1) :
    (runRows c st (r :: rs)).2 = (runRows c (resetTo st) (r :: rs)).2 := by
  simp only [runRows, step_reset c st r (by omega),
    step_no_reset c (resetTo st) r (by simp [resetTo, h])]

/-- Claim C5 counterexample: a unit containing only the single
second-bank pin PB0 still receives one blank separator slot: PB0 is
placed at slot 1 (y = -100), although the unit holds pins of only one
bank and the claim then demands zero inserted blanks (slot 0). -/
theorem C5_counterexample :
    (pipeline c5rows).map (fun o => o.y) = [-100] ∧
    (-100 : Int) ≠ -(pinYSpacing * 0) := by decide

/-- A freshly entered unit (tracker one below the unit number) places
its i-th pin at slot i plus the separator bump at i. -/
theorem runRows_entry_slots (c : DevConsts) (u : Nat) (rows : List DataRow)
    (st : LoopState)
    (hall : ∀ r ∈ rows, r.unit = u) (hplain : ∀ r ∈ rows, plainName r.name = true)
    (hst : st.unitNumber + 1 = u) :
    ((runRows c st rows).2).map OutRow.y =
      (List.range rows.length).map
        (fun i => -(pinYSpacing * ((i + sepBump rows i : Nat) : Int))) := by
  cases rows with
  | nil => simp [runRows]
  | cons r rs =>
    rw [runRows_out_entry c st r rs (by rw [hall r (List.mem_cons_self r rs)]; omega)]
    have h := runRows_plain_slots c u (r :: rs) (resetTo st) hall hplain
      (by simp [resetTo]; omega)
    rw [h]
    apply List.map_congr_left
    intro i _
    simp [resetTo, slotOf]

/-- Claim C5 amended: in a unit entered with a correctly trailing
tracker, the pin at index i is placed at slot i plus one extra blank
slot exactly when some pin at index at most i matches the second-bank
pattern; so one blank is inserted immediately before the first
second-bank pin whenever the unit contains one — even when the unit
contains only second-bank pins — and zero blanks only when no pin
matches the second-bank pattern. -/
theorem C5_amended (c : DevConsts) (u : Nat) (rows : List DataRow) (st : LoopState)
    (hall : ∀ r ∈ rows, r.unit = u) (hplain : ∀ r ∈ rows, plainName r.name = true)
    (hst : st.unitNumber + 1 = u) :
    ((runRows c st rows).2).map OutRow.y =
      (List.range rows.length).map
        (fun i => -(pinYSpacing * ((i + sepBump rows i : Nat) : Int))) :=
  runRows_entry_slots c u rows st hall hplain hst

/-- Claim C5 amended witness: with PA0, PA1, PB0 the single blank slot
sits immediately before PB0 (slots 0, 1, 3). -/
theorem C5_amended_witness :
    (((runRows (devConsts []) initState c5wit).2).map OutRow.y =
      (List.range c5wit.length).map
        (fun i => -(pinYSpacing * ((i + sepBump c5wit i : Nat) : Int)))) ∧
    ((runRows (devConsts []) initState c5wit).2).map OutRow.y = [0, -100, -300] :=
  ⟨C5_amended (devConsts []) 1 c5wit initState (by decide) (by decide) (by decide),
   by decide⟩

/-- Claim C6 confirmed: for a unit entered with a correctly trailing
tracker, sort_table orders the unit's rows by the natural alphanumeric
key of the name (in particular PA2 precedes PA10, digits comparing as
integers), the i-th sorted pin is assigned slot i plus the single
separator slot once a second-bank pin has appeared, and its vertical
coordinate is -(100 x slot). -/
theorem C6_sequencer (c : DevConsts) (u : Nat) (rows : List DataRow) (st : LoopState)
    (hall : ∀ r ∈ rows, r.unit = u) (hplain : ∀ r ∈ rows, plainName r.name = true)
    (hst : st.unitNumber + 1 = u) :
    (sortTable rows).Perm rows ∧
    (sortTable rows).Pairwise rowNameLe ∧
    akeysLt (alnumKey "PA2/") (alnumKey "PA10/") = true ∧
    ((runRows c st (sortTable rows)).2).map OutRow.y =
      (List.range (sortTable rows).length).map
        (fun i => -(pinYSpacing * ((i + sepBump (sortTable rows) i : Nat) : Int))) := by
  have hperm := sortTable_perm rows
  have hall2 : ∀ r ∈ sortTable rows, r.unit = u :=
    fun r hr => hall r (hperm.mem_iff.mp hr)
  have hplain2 : ∀ r ∈ sortTable rows, plainName r.name = true :=
    fun r hr => hplain r (hperm.mem_iff.mp hr)
  refine ⟨hperm, ?_, by decide, ?_⟩
  · rw [sortTable_const_unit rows u hall]
    exact List.sorted_insertionSort rowNameLe rows
  · exact runRows_entry_slots c u (sortTable rows) st hall2 hplain2 hst

/-- Claim C6 witness: unit 1 with pins PA0, PA1, PB0 (given out of
order) is sorted, sequenced to slots 0, 1 and 3 with the blank slot 2
before PB0, giving vertical coordinates 0, -100, -300. -/
theorem C6_sequencer_witness :
    ((sortTable c6rows).Perm c6rows ∧
     (sortTable c6rows).Pairwise rowNameLe ∧
     akeysLt (alnumKey "PA2/") (alnumKey "PA10/") = true ∧
     ((runRows (devConsts (unit4Names c6rows)) initState (sortTable c6rows)).2).map
         OutRow.y =
       (List.range (sortTable c6rows).length).map
         (fun i => -(pinYSpacing * ((i + sepBump (sortTable c6rows) i : Nat) : Int)))) ∧
    (pipeline c6rows).map (fun o => o.y) = [0, -100, -300] :=
  ⟨C6_sequencer (devConsts (unit4Names c6rows)) 1 c6rows initState (by decide)
     (by decide) (by decide),
   by decide⟩

/-- Claim C7 amended: one box is produced for exactly the populated
units, and the unit-4 box has the fixed width and the height
spacing * vssMax + boxOffset, PROVIDED some VSS/VSS_PAD pin exists
whenever unit 4 is populated; without such a pin the box stage fails on
the never-assigned vss_max (the claim's "no error paths" does not hold). -/
theorem C7_amended (rows : List DataRow)
    (hu : ∀ r ∈ rows, 1 ≤ r.unit ∧ r.unit ≤ 4)
    (h4 : (∃ r ∈ rows, r.unit = 4) → ∃ r ∈ rows, isVSSpin r.name = true) :
    ∃ bs, unitBoxes rows = some bs ∧
      (∀ u, (bs.filter (fun b => b.unit = u)).length
            = if u ∈ rows.map DataRow.unit then 1 else 0) ∧
      (∀ b ∈ bs, b.unit = 4 →
        b.xMax = unit4Width + pinLength ∧
        ∃ v, ((pipelineRun rows).1).vssMax = some v ∧
          b.yMin = -(v * pinYSpacing + pinYBoxOffset)) := by
  have hperm := sortTable_perm rows
  have hunits : ((pipelineRun rows).2).map OutRow.unit = (sortTable rows).map DataRow.unit :=
    runRows_units _ _ _
  have hOutSorted : ((pipelineRun rows).2).Pairwise (fun a b => a.unit ≤ b.unit) := by
    rw [← List.pairwise_map (f := OutRow.unit) (R := fun a b => a ≤ b), hunits,
      List.pairwise_map]
    exact sortTable_sorted_units rows
  obtain ⟨hjoin, hgroups, _, _⟩ := chunk_spec (pipelineRun rows).2
  have hmemu : ∀ u, u ∈ ((pipelineRun rows).2).map OutRow.unit ↔ u ∈ rows.map DataRow.unit := by
    intro u
    rw [hunits]
    exact (hperm.map DataRow.unit).mem_iff
  have hex : ∀ g ∈ chunkByUnit (pipelineRun rows).2,
      ∃ b, unitBoxOf (countUnit rows) ((pipelineRun rows).1).vssMax g = some b := by
    intro g hg
    apply unitBoxOf_isSome
    by_cases hlt : g.1 < 4
    · exact Or.inl hlt
    · refine Or.inr ?_
      obtain ⟨x, hx⟩ := List.exists_mem_of_ne_nil g.2 (hgroups g hg).1
      have hxu : x.unit = g.1 := (hgroups g hg).2 x hx
      have hxmem : x ∈ (pipelineRun rows).2 := by
        rw [← hjoin]
        exact List.mem_flatten.mpr ⟨g.2, List.mem_map.mpr ⟨g, hg, rfl⟩, hx⟩
      have hgu : g.1 ∈ rows.map DataRow.unit := by
        rw [← hmemu]
        exact List.mem_map.mpr ⟨x, hxmem, hxu⟩
      obtain ⟨r, hr, hru⟩ := List.mem_map.mp hgu
      have h44 : r.unit = 4 := by
        have := (hu r hr).2
        omega
      obtain ⟨q, hq, hqv⟩ := h4 ⟨r, hr, h44⟩
      exact runRows_vss_sets _ _ _ ⟨q, hperm.mem_iff.mpr hq, hqv⟩
  obtain ⟨bs, hbs⟩ := optMap_isSome _ _ hex
  have hbs2 : unitBoxes rows = some bs := by
    simpa only [unitBoxes] using hbs
  have fa2 := optMap_forall2 _ _ _ hbs
  refine ⟨bs, hbs2, ?_, ?_⟩
  · intro u
    have hlen := forall2_filter_length (p := fun g => g.1 = u)
      (q := fun b => b.unit = u) fa2 ?_
    · rw [hlen, chunk_count _ hOutSorted u]
      by_cases hm : u ∈ rows.map DataRow.unit
      · rw [if_pos ((hmemu u).mpr hm), if_pos hm]
      · rw [if_neg (fun hc => hm ((hmemu u).mp hc)), if_neg hm]
    · intro g b hr
      have := unitBoxOf_unit _ _ _ _ hr
      simp [this]
  · intro b hb hb4
    obtain ⟨g, hg, hfg⟩ := forall2_mem_right fa2 b hb
    have hbu : b.unit = g.1 := unitBoxOf_unit _ _ _ _ hfg
    have hg4 : ¬g.1 < 4 := by omega
    unfold unitBoxOf at hfg
    rw [if_neg hg4] at hfg
    cases hv : ((pipelineRun rows).1).vssMax with
    | none => rw [hv] at hfg; simp at hfg
    | some v =>
      rw [hv] at hfg
      simp only [Option.some.injEq] at hfg
      rw [← hfg]
      exact ⟨rfl, v, rfl, rfl⟩

/-- Claim C7 amended witness: a device with unit 1 and a unit 4
containing RESETn and VSS yields one box per populated unit and a
well-defined unit-4 box. -/
theorem C7_amended_witness :
    ∃ bs, unitBoxes c7wit = some bs ∧
      (∀ u, (bs.filter (fun b => b.unit = u)).length
            = if u ∈ c7wit.map DataRow.unit then 1 else 0) ∧
      (∀ b ∈ bs, b.unit = 4 →
        b.xMax = unit4Width + pinLength ∧
        ∃ v, ((pipelineRun c7wit).1).vssMax = some v ∧
          b.yMin = -(v * pinYSpacing + pinYBoxOffset)) :=
  C7_amended c7wit (by decide) (by decide)

/-- Claim C7 counterexample: a device whose populated unit 4 contains no
VSS/VSS_PAD pin (here only RESETn) reaches the outline stage with
vss_max never assigned, so the unit-4 box is not computable: the
Outline Calculator does have an error path, against the claim. -/
theorem C7_counterexample :
    c7rows.map (fun r => r.unit) = [1, 4] ∧ unitBoxes c7rows = none := by decide

/-- Claim C8 counterexample: unit 1 with pins PA0, PA1, PB0 occupies
four slots (one separator), so the claim predicts height 100*4+150 =
550; the code uses the raw pin count and produces a box of height 450
(yMin = -450). -/
theorem C8_counterexample :
    unitBoxes c8rows
      = some [{ xMin := 300, yMax := 150, xMax := 780, yMin := -450, unit := 1 }] ∧
    boxHeightPerClaimC8 4 = 550 ∧
    (-450 : Int) ≠ -boxHeightPerClaimC8 4 := by decide

/-- Claim C8 amended: for a populated unit below 4 the box width is
(max over the unit's rows of length(name column ++ functionality)) * 45
+ 300 + pinLength, and the box height is spacing times the unit's pin
count NOT counting the separator slot, plus the box offset. -/
theorem C8_amended (rows : List DataRow) (bs : List UnitBox)
    (hsome : unitBoxes rows = some bs)
    (hplain : ∀ r ∈ rows, r.unit < 4 → plainName r.name = true)
    (b : UnitBox) (hb : b ∈ bs) (hlt : b.unit < 4) :
    b.xMax = (((rows.filter (fun r => r.unit = b.unit)).map
        (fun r => ((r.name ++ r.func).length : Int))).foldl max 0) * 45 + 300 + pinLength ∧
    b.yMin = -(pinYSpacing * (((rows.filter (fun r => r.unit = b.unit)).length : Nat) : Int)
               + pinYBoxOffset) := by
  have hperm := sortTable_perm rows
  have hunits : ((pipelineRun rows).2).map OutRow.unit
      = (sortTable rows).map DataRow.unit := runRows_units _ _ _
  have hOutSorted : ((pipelineRun rows).2).Pairwise (fun a b => a.unit ≤ b.unit) := by
    rw [← List.pairwise_map (f := OutRow.unit) (R := fun a b => a ≤ b), hunits,
      List.pairwise_map]
    exact sortTable_sorted_units rows
  have hbs : optMap (unitBoxOf (countUnit rows) ((pipelineRun rows).1).vssMax)
      (chunkByUnit (pipelineRun rows).2) = some bs := by
    simpa only [unitBoxes] using hsome
  have fa2 := optMap_forall2 _ _ _ hbs
  obtain ⟨g, hg, hfg⟩ := forall2_mem_right fa2 b hb
  have hbu : b.unit = g.1 := unitBoxOf_unit _ _ _ _ hfg
  have hglt : g.1 < 4 := by omega
  unfold unitBoxOf at hfg
  rw [if_pos hglt] at hfg
  simp only [Option.some.injEq] at hfg
  have hgrp : (pipelineRun rows).2.filter (fun x => x.unit = g.1) = g.2 :=
    chunk_group_eq_filter _ hOutSorted g.1 g.2 (by simpa using hg)
  have hnames : (((pipelineRun rows).2.filter (fun o => o.unit = g.1)).map
        (fun o => o.name ++ o.func))
      = ((sortTable rows).filter (fun r => r.unit = g.1)).map
        (fun r => r.name ++ r.func) := by
    apply runRows_filter_nameFunc
    intro r hr hru
    exact hplain r (hperm.mem_iff.mp hr) (by omega)
  have hmax : ((g.2.map (fun o => ((o.name ++ o.func).length : Int))).foldl max 0)
      = (((rows.filter (fun r => r.unit = g.1)).map
          (fun r => ((r.name ++ r.func).length : Int))).foldl max 0) := by
    have e1 : g.2.map (fun o => ((o.name ++ o.func).length : Int))
        = (g.2.map (fun o => o.name ++ o.func)).map (fun s => (s.length : Int)) := by
      rw [List.map_map]
      rfl
    have e2 : (rows.filter (fun r => r.unit = g.1)).map
          (fun r => ((r.name ++ r.func).length : Int))
        = ((rows.filter (fun r => r.unit = g.1)).map
            (fun r => r.name ++ r.func)).map (fun s => (s.length : Int)) := by
      rw [List.map_map]
      rfl
    rw [e1, e2, ← hgrp, hnames]
    apply foldl_max_perm
    exact ((hperm.filter (fun r => r.unit = g.1)).map (fun r => r.name ++ r.func)).map
      (fun s => (s.length : Int))
  constructor
  · rw [← hfg]
    simp only [hbu]
    rw [hmax]
  · rw [← hfg]
    simp only [hbu, countUnit]

/-- Claim C8 amended witness: the unit-1 box of the PA0, PA1, PB0 device
has width 780 from the longest label and height from the three pins
(separator excluded). -/
theorem C8_amended_witness :
    (({ xMin := 300, yMax := 150, xMax := 780, yMin := -450, unit := 1 } : UnitBox).xMax
        = (((c8rows.filter (fun r => r.unit =
              ({ xMin := 300, yMax := 150, xMax := 780, yMin := -450,
                 unit := 1 } : UnitBox).unit)).map
            (fun r => ((r.name ++ r.func).length : Int))).foldl max 0) * 45 + 300
            + pinLength ∧
      ({ xMin := 300, yMax := 150, xMax := 780, yMin := -450, unit := 1 } : UnitBox).yMin
        = -(pinYSpacing * (((c8rows.filter (fun r => r.unit =
              ({ xMin := 300, yMax := 150, xMax := 780, yMin := -450,
                 unit := 1 } : UnitBox).unit)).length : Nat) : Int) + pinYBoxOffset)) :=
  C8_amended c8rows [{ xMin := 300, yMax := 150, xMax := 780, yMin := -450, unit := 1 }]
    (by decide) (by decide) _ (List.mem_singleton.mpr rfl) (by decide)

/-- Claim C9 counterexample: IOVDD_1 precedes IOVDD_0 in input-row
order, so input-order counting would give IOVDD_1 the counter n = 0 and
slot 6 (y = -600); the code instead counts in re-sorted order and
places IOVDD_0 at -600 and IOVDD_1 at -700. -/
theorem C9_counterexample :
    ((pipeline c9rows).filter (fun o => o.name = "IOVDD_1")).map (fun o => o.y)
      = [-700] ∧
    ((pipeline c9rows).filter (fun o => o.name = "IOVDD_0")).map (fun o => o.y)
      = [-600] ∧
    ((-700 : Int) ≠ -600) := by decide

/-- Claim C9 amended: within each unit-4 special-pin group the running
counter n used in the slot formula is assigned in the processing order
of the sorted table (unit, then natural name order), not in input-row
order: the pin at sorted index i of its group gets n equal to the number
of earlier sorted rows of the same group. -/
theorem C9_amended (c : DevConsts) (u : Nat) (rows : List DataRow) (st : LoopState)
    (hall : ∀ r ∈ rows, r.unit = u) (hst : st.unitNumber = u)
    (i : Nat) (hi : i < rows.length) :
    (isIOVDDd ((rows.getD i default).name) = true →
      (((runRows c st rows).2).getD i default).y =
        -(anchorMax c - (c.iovddTot : Int)
          + ((st.iovddCounter + countPred isIOVDDd rows i : Nat) : Int))
          * pinYSpacing) ∧
    (isAVDDpin ((rows.getD i default).name) = true →
      (((runRows c st rows).2).getD i default).y =
        -(anchorMax c - (c.avddTot : Int)
          + ((st.avddCounter + countPred isAVDDpin rows i : Nat) : Int))
          * pinYSpacing) ∧
    (isAVSSpin ((rows.getD i default).name) = true →
      (((runRows c st rows).2).getD i default).y =
        -(anchorMax c + 3 + (if c.vssdregFlag then 2 else 0) + (c.vssTot : Int)
          + ((st.avssCounter + countPred isAVSSpin rows i : Nat) : Int)
          - (c.avssTot : Int)) * pinYSpacing) ∧
    (isVSSpin ((rows.getD i default).name) = true →
      (((runRows c st rows).2).getD i default).y =
        -(anchorMax c + 3 + (if c.vssdregFlag then 2 else 0)
          + ((st.vssCounter + countPred isVSSpin rows i : Nat) : Int))
          * pinYSpacing) :=
  runRows_group_y c u rows st hall hst i hi

/-- Claim C9 amended witness: the second sorted IOVDD pin gets counter
n = 1. -/
theorem C9_amended_witness :
    ((isIOVDDd ((c9wit.getD 1 default).name) = true →
      (((runRows (devConsts ["IOVDD_0", "IOVDD_1"]) c9state c9wit).2).getD 1 default).y =
        -(anchorMax (devConsts ["IOVDD_0", "IOVDD_1"])
          - ((devConsts ["IOVDD_0", "IOVDD_1"]).iovddTot : Int)
          + ((c9state.iovddCounter + countPred isIOVDDd c9wit 1 : Nat) : Int))
          * pinYSpacing) ∧
    (isAVDDpin ((c9wit.getD 1 default).name) = true →
      (((runRows (devConsts ["IOVDD_0", "IOVDD_1"]) c9state c9wit).2).getD 1 default).y =
        -(anchorMax (devConsts ["IOVDD_0", "IOVDD_1"])
          - ((devConsts ["IOVDD_0", "IOVDD_1"]).avddTot : Int)
          + ((c9state.avddCounter + countPred isAVDDpin c9wit 1 : Nat) : Int))
          * pinYSpacing) ∧
    (isAVSSpin ((c9wit.getD 1 default).name) = true →
      (((runRows (devConsts ["IOVDD_0", "IOVDD_1"]) c9state c9wit).2).getD 1 default).y =
        -(anchorMax (devConsts ["IOVDD_0", "IOVDD_1"]) + 3
          + (if (devConsts ["IOVDD_0", "IOVDD_1"]).vssdregFlag then 2 else 0)
          + ((devConsts ["IOVDD_0", "IOVDD_1"]).vssTot : Int)
          + ((c9state.avssCounter + countPred isAVSSpin c9wit 1 : Nat) : Int)
          - ((devConsts ["IOVDD_0", "IOVDD_1"]).avssTot : Int)) * pinYSpacing) ∧
    (isVSSpin ((c9wit.getD 1 default).name) = true →
      (((runRows (devConsts ["IOVDD_0", "IOVDD_1"]) c9state c9wit).2).getD 1 default).y =
        -(anchorMax (devConsts ["IOVDD_0", "IOVDD_1"]) + 3
          + (if (devConsts ["IOVDD_0", "IOVDD_1"]).vssdregFlag then 2 else 0)
          + ((c9state.vssCounter + countPred isVSSpin c9wit 1 : Nat) : Int))
          * pinYSpacing)) ∧
    countPred isIOVDDd c9wit 1 = 1 :=
  ⟨C9_amended (devConsts ["IOVDD_0", "IOVDD_1"]) 4 c9wit c9state (by decide) (by decide)
     1 (by decide),
   by decide⟩

/-- Claim C10 counterexample: with only unit 2 populated (k = 1 empty
unit before it) the claim says the first two pins both receive slot 0;
the code resets the counter twice, but the second pin PD0 also triggers
the second-bank separator bump and lands at slot 1 (y = -100). -/
theorem C10_counterexample :
    (pipeline c10rows).map (fun o => o.y) = [0, -100] ∧ ((-100 : Int) ≠ 0) := by decide

/-- Claim C10 amended: the tracker increments by exactly one per reset,
so when a unit u is entered with tracker t < u, each of its first u - t
pins is processed with a freshly reset row counter; for pins matching
neither a second-bank prefix nor a unit-4 placement pattern this means
slot 0 for those pins, and slots then increment from 1 for the rest.
The claim's count k + 1 matches u - t only when every earlier populated
unit caught the tracker up to its own number. -/
theorem C10_amended (c : DevConsts) (u : Nat) (rows : List DataRow) (st : LoopState)
    (hall : ∀ r ∈ rows, r.unit = u)
    (hgood : ∀ r ∈ rows, plainName r.name = true ∧ secondBank r.name = false)
    (hlt : st.unitNumber < u) :
    ((runRows c st rows).2).map OutRow.y =
      (List.range rows.length).map
        (fun i => if st.unitNumber + i + 1 < u + 1 then 0
          else -(pinYSpacing * ((i + st.unitNumber + 1 - u : Nat) : Int))) :=
  runRows_catchup c u rows st hall hgood hlt

/-- Claim C10 amended witness: only unit 2 populated, entered with
tracker 0: its first two pins both get slot 0 and the third gets slot
1 — vertical coordinates 0, 0, -100. -/
theorem C10_amended_witness :
    (((runRows (devConsts []) initState c10wit).2).map OutRow.y =
      (List.range c10wit.length).map
        (fun i => if initState.unitNumber + i + 1 < 2 + 1 then 0
          else -(pinYSpacing * ((i + initState.unitNumber + 1 - 2 : Nat) : Int)))) ∧
    ((runRows (devConsts []) initState c10wit).2).map OutRow.y = [0, 0, -100] :=
  ⟨C10_amended (devConsts []) 2 c10wit initState (by decide) (by decide) (by decide),
   by decide⟩

